import Mathlib

/-!
Shallow embedding of the HotStuff/SyncHotStuff-with-omission consensus core
(`HotStuffCore` in src/hotstuff/consensus.cpp together with its header
src/include/hotstuff/consensus.h).

Blocks are content-addressed; we model block hashes and command hashes as
natural numbers, the block store as an association list from hash to block,
and every `block_t` handle as the hash of the block it points to (the store
deduplicates by hash, so hash equality models C++ handle equality).
`std::unordered_set` values are modelled as duplicate-free lists with
insertion order preserved; `std::unordered_map` values as association lists.
Handlers that can `throw` return `Except Err`; the callback interface
(`do_*` outputs, timers, promise resolutions) is modelled as a trace of
`Effect` values emitted in program order.
-/

namespace hotstuff

/-- Block hashes and command hashes (uint256 in the source). -/
abbrev Hash : Type := Nat

/-- Replica identifiers. -/
abbrev ReplicaID : Type := Nat

/-- Domain-separated proof-object hash: the source builds it by hashing a
proof-type tag byte followed by the payload; we keep the pair, which is
injective in the same way. -/
structure PHash where
  tag : Nat
  val : Nat
deriving DecidableEq, Repr

/-- Partial certificate: one signer attesting one proof-object hash. -/
structure PartCert where
  signer : ReplicaID
  obj_hash : PHash
deriving DecidableEq, Repr

/-- Quorum certificate being accumulated or finalized over a proof-object
hash; `computed` records whether `compute()` has been called. -/
structure QC where
  obj_hash : PHash
  signers : List ReplicaID
  computed : Bool
deriving DecidableEq, Repr

/-- QuorumCert::add_part. -/
def QC.add_part (qc : QC) (r : ReplicaID) : QC :=
  { qc with signers := qc.signers ++ [r] }

/-- QuorumCert::compute. -/
def QC.compute (qc : QC) : QC :=
  { qc with computed := true }

/-- create_quorum_cert factory: a fresh, empty, unfinalized certificate. -/
def create_quorum_cert (h : PHash) : QC :=
  ⟨h, [], false⟩

/-- create_part_cert factory: the private key determines the signer, so we
pass the replica id in its place. -/
def create_part_cert (signer : ReplicaID) (h : PHash) : PartCert :=
  ⟨signer, h⟩

/-- A block of the DAG (entity.h `Block`); `parents` holds the resolved
primary-parent-first handles (as hashes) filled in at delivery. -/
structure Block where
  parent_hashes : List Hash := []
  parents : List Hash := []
  height : Nat := 0
  cmds : List Nat := []
  qc : Option QC := none
  qc_ref_hash : Hash := 0
  qc_ref : Option Hash := none
  self_qc : Option QC := none
  voted : List ReplicaID := []
  preCommitted : List ReplicaID := []
  decision : Int := 0
  delivered : Bool := false
  hash : Hash := 0
deriving DecidableEq, Repr

/-- Vote::proof_obj_hash: tag 0x00 over the block hash. -/
def Vote.proof_obj_hash (h : Hash) : PHash := ⟨0, h⟩

/-- Blame::proof_obj_hash: tag 0x01 over the view. -/
def Blame.proof_obj_hash (v : Nat) : PHash := ⟨1, v⟩

/-- Echo::proof_obj_hash: tag 0x02 (ProofType::PROPAGATE) over the message
hash. -/
def Echo.proof_obj_hash (h : Hash) : PHash := ⟨2, h⟩

/-- Ack::proof_obj_hash: identical to the Echo one (same PROPAGATE tag). -/
def Ack.proof_obj_hash (h : Hash) : PHash := ⟨2, h⟩

/-- PreCommit::proof_obj_hash: tag 0x03 over the block hash. -/
def PreCommit.proof_obj_hash (h : Hash) : PHash := ⟨3, h⟩

/-- Proposal message (the block travels by handle/hash). -/
structure Proposal where
  proposer : ReplicaID
  blk : Hash
deriving DecidableEq, Repr

/-- Vote message. -/
structure Vote where
  voter : ReplicaID
  blk_hash : Hash
  cert : PartCert
deriving DecidableEq, Repr

/-- Blame message. -/
structure Blame where
  blamer : ReplicaID
  view : Nat
  cert : PartCert
deriving DecidableEq, Repr

/-- BlameNotify message. -/
structure BlameNotify where
  view : Nat
  hqc_hash : Hash
  hqc_qc : QC
  qc : QC
deriving DecidableEq, Repr

/-- Echo message; opcode 0x00 = PropagateType::BLOCK. -/
structure Echo where
  rid : ReplicaID
  blk_hash : Hash
  opcode : Nat
  cert : PartCert
deriving DecidableEq, Repr

/-- Ack message, same layout as Echo. -/
structure Ack where
  rid : ReplicaID
  blk_hash : Hash
  opcode : Nat
  cert : PartCert
deriving DecidableEq, Repr

/-- PreCommit message. -/
structure PreCommit where
  rid : ReplicaID
  blk_hash : Hash
  cert : PartCert
deriving DecidableEq, Repr

/-- Finality record passed to do_decide. -/
structure Finality where
  rid : ReplicaID
  decision : Int
  cmd_idx : Nat
  cmd_height : Nat
  cmd_hash : Nat
  blk_hash : Hash
deriving DecidableEq, Repr

/-- Outputs of the core: virtual do_* callbacks, timer controls, and
promise resolutions, emitted in program order. -/
inductive Effect where
  | doConsensus (blk : Hash)
  | doDecide (fin : Finality)
  | broadcastProposal (proposer : ReplicaID) (blk : Hash)
  | broadcastVote (voter : ReplicaID) (blk : Hash)
  | broadcastBlame (blamer : ReplicaID) (view : Nat)
  | broadcastBlamenotify (bn : BlameNotify)
  | doNotify (blk : Hash)
  | broadcastEcho (rid : ReplicaID) (blk : Hash)
  | sendEcho (rid : ReplicaID) (dest : ReplicaID) (blk : Hash)
  | multicastAck (rid : ReplicaID) (blk : Hash) (dests : List ReplicaID)
  | sendAck (rid : ReplicaID) (blk : Hash) (dest : ReplicaID)
  | broadcastPreCommit (rid : ReplicaID) (blk : Hash)
  | setPropagateTimer (blk : Hash) (t : Nat)
  | setAckTimer (blk : Hash) (t : Nat)
  | setPreCommitTimer (blk : Hash) (t : Nat)
  | setViewtransTimer (t : Nat)
  | setBlameTimer (t : Nat)
  | stopBlameTimer
  | stopCommitTimerAll
  | qcFinishResolved (blk : Hash)
  | proposeResolved (blk : Hash)
  | receiveProposalResolved (blk : Hash)
  | hqcUpdateResolved
  | viewChangeResolved
  | viewTransResolved
deriving DecidableEq, Repr

/-- Runtime errors of the core. Each constructor corresponds to one C++
`throw`/`assert` site (or to a model artifact that cannot arise on states
corresponding to real heap states, noted per constructor). -/
inductive Err where
  /-- `throw std::runtime_error("block not delivered")` in
  sanity_check_delivered / get_delivered_blk. -/
  | blockNotDelivered
  /-- `throw std::runtime_error("block referred by qc not fetched")`. -/
  | qcBlockMissing
  /-- `throw std::runtime_error("empty parents")` in on_propose. -/
  | emptyParents
  /-- `throw std::runtime_error("safety breached ...")` in check_commit. -/
  | safetyBreached
  /-- `throw std::runtime_error("new block should be higher than vheight")`. -/
  | vheightLow
  /-- Model artifact: a hash used as a block handle is not in the store; a
  C++ handle always points at a stored block. -/
  | blkMissing
  /-- Model artifact: dereference of a null handle (e.g. hqc before
  on_init), undefined behavior in C++. -/
  | nullHandle
  /-- A failed `assert` (compiled in, aborts the process). -/
  | assertFail
  /-- Model artifact: recursion fuel exhausted; every theorem supplies
  enough fuel for the concrete call depth of the code. -/
  | fuelOut
deriving DecidableEq, Repr

/-- The block store: association list from hash to block (EntityStorage). -/
abbrev Store : Type := List (Hash × Block)

/-- EntityStorage::find_blk. -/
def findBlk : Store → Hash → Option Block
  | [], _ => none
  | (k, v) :: rest, h => if k = h then some v else findBlk rest h

/-- Write back a (mutated) block under its hash, replacing the old binding
or inserting a new one. -/
def setBlk : Store → Hash → Block → Store
  | [], h, b => [(h, b)]
  | (k, v) :: rest, h, b => if k = h then (h, b) :: rest else (k, v) :: setBlk rest h b

/-- Remove a block from the store (EntityStorage::try_release_blk). -/
def removeBlk : Store → Hash → Store
  | [], _ => []
  | (k, v) :: rest, h => if k = h then rest else (k, v) :: removeBlk rest h

/-- EntityStorage::add_blk: insert, or return the canonical stored block if
the hash is already present (deduplication). -/
def add_blk (st : Store) (b : Block) : Store × Block :=
  match findBlk st b.hash with
  | some c => (st, c)
  | none => ((b.hash, b) :: st, b)

/-- std::unordered_set insert modelled on duplicate-free lists: returns
whether the element was new, together with the updated set. -/
def insertNew (l : List Nat) (x : Nat) : Bool × List Nat :=
  if x ∈ l then (false, l) else (true, l ++ [x])

/-- Set insertion that discards the freshness flag. -/
def setInsert (l : List Nat) (x : Nat) : List Nat :=
  if x ∈ l then l else l ++ [x]

/-- Read a set-valued map entry, defaulting to the empty set like
`operator[]` on an unordered_map. -/
def lookupSet : List (Nat × List Nat) → Nat → List Nat
  | [], _ => []
  | (k, v) :: rest, h => if k = h then v else lookupSet rest h

/-- Write a set-valued map entry. -/
def updateSet : List (Nat × List Nat) → Nat → List Nat → List (Nat × List Nat)
  | [], k, v => [(k, v)]
  | (k', v') :: rest, k, v =>
    if k' = k then (k, v) :: rest else (k', v') :: updateSet rest k v

/-- Replica configuration. The bodies of ReplicaConfig/add_replica live in
headers outside src/. Modelled from the spec: `nreplicas`, `nfaulty`
(derived `nmajority = nreplicas − nfaulty`), `delta`, `commit_interval`
are the configuration parameters, and add_replica registers one replica. -/
structure Config where
  nreplicas : Nat := 0
  nmajority : Nat := 0
  delta : Nat := 0
  commit_interval : Nat := 1
  replicas : List ReplicaID := []
deriving DecidableEq, Repr

/-- ReplicaConfig::add_replica. Modelled from the spec: registers the
replica id (with its address and public key held opaquely) and counts it. -/
def Config.add_replica (c : Config) (rid : ReplicaID) : Config :=
  { c with replicas := c.replicas ++ [rid], nreplicas := c.nreplicas + 1 }

/-- The HotStuffCore replica state. Promise fields of the C++ class
(propose_waiting, qc_waiting, ...) are modelled by the set of keys with a
pending promise (`qc_waiting`) and by resolution effects in the trace. -/
structure HotStuffCore where
  storage : Store
  b0 : Hash
  hqc : Option (Hash × QC)
  b_exec : Hash
  vheight : Nat
  view : Nat
  view_trans : Bool
  proposals : List (Nat × List Hash)
  finished_propose : List Hash
  blame_qc : Option QC
  blamed : List ReplicaID
  tails : List Hash
  config : Config
  qc_waiting : List Hash
  vote_disabled : Bool
  id : ReplicaID
  last_qc_ref : Hash
  propagate_echos : List (Hash × List ReplicaID)
  propagate_acks : List (Hash × List ReplicaID)
deriving DecidableEq, Repr

/-- Host-provided predicates and the proposer mapping: is_propagate_timeout,
is_ack_timeout and get_proposer are implemented outside the core. -/
structure Env where
  get_proposer : ReplicaID
  is_propagate_timeout : Hash → Bool
  is_ack_timeout : Hash → Bool

/-- The genesis block `new Block(true, 1)`: delivered, decision 1, height 0.
The Block(bool, int) constructor lives in entity.h outside src/; modelled
from the spec: genesis has height 0 and is created self-certified. -/
def genesisBlock (h : Hash) : Block :=
  { delivered := true, decision := 1, hash := h }

/-- The HotStuffCore constructor: genesis in the store and in tails,
vheight 0, view 0, not in view transition, blame_qc null. -/
def construct (id : ReplicaID) (genesisHash : Hash) : HotStuffCore :=
  { storage := [(genesisHash, genesisBlock genesisHash)]
    b0 := genesisHash
    hqc := none
    b_exec := genesisHash
    vheight := 0
    view := 0
    view_trans := false
    proposals := []
    finished_propose := []
    blame_qc := none
    blamed := []
    tails := [genesisHash]
    config := {}
    qc_waiting := []
    vote_disabled := false
    id := id
    last_qc_ref := genesisHash
    propagate_echos := []
    propagate_acks := [] }

/-- Result type of the state handlers: an error, or the new state plus the
trace of emitted effects. -/
abbrev HSRes : Type := Except Err (HotStuffCore × List Effect)

/-- HotStuffCore::get_delivered_blk: lookup plus delivered check; throws
"block not delivered" otherwise. -/
def get_delivered_blk (st : Store) (h : Hash) : Except Err Block :=
  match findBlk st h with
  | none => .error .blockNotDelivered
  | some b => if b.delivered then .ok b else .error .blockNotDelivered

/-- The parent-resolution loop of on_deliver_blk:
`for (const auto &hash: blk->parent_hashes)
   blk->parents.push_back(get_delivered_blk(hash));`
which throws at the first parent that is not delivered. In the model a
resolved handle is the hash itself, so only the delivered checks remain. -/
def requireDelivered (st : Store) : List Hash → Except Err Unit
  | [] => .ok ()
  | h :: rest => do
    let _ ← get_delivered_blk st h
    requireDelivered st rest

/-- HotStuffCore::on_deliver_blk. Returns false (warning, no state change)
on duplicate delivery; resolves parents (throwing if any parent is not
delivered), sets the height from the primary parent, resolves qc_ref when a
qc is carried (throwing if the referenced block is absent), updates tails
and marks the block delivered. The tails set is keyed by BlockHeightCmp in
entity.h outside src/; modelled from the spec: tails is a set of blocks,
from which all parents are removed and into which the block is inserted. -/
def on_deliver_blk (s : HotStuffCore) (blkH : Hash) : Except Err (Bool × HotStuffCore × List Effect) :=
  match findBlk s.storage blkH with
  | none => .error .blkMissing
  | some blk =>
    if blk.delivered then .ok (false, s, [])
    else do
      let _ ← requireDelivered s.storage blk.parent_hashes
      match blk.parent_hashes with
      | [] => .error .blkMissing
      | p0H :: _ =>
        match findBlk s.storage p0H with
        | none => .error .blockNotDelivered
        | some p0 => do
          let blk := { blk with parents := blk.parent_hashes, height := p0.height + 1 }
          let blk ←
            if blk.qc.isSome then
              match findBlk s.storage blk.qc_ref_hash with
              | none => .error .qcBlockMissing
              | some _ => .ok { blk with qc_ref := some blk.qc_ref_hash }
            else .ok blk
          let tails := s.tails.filter (fun t => decide (t ∉ blk.parent_hashes))
          let tails := setInsert tails blkH
          let blk := { blk with delivered := true }
          .ok (true, { s with storage := setBlk s.storage blkH blk, tails := tails }, [])

/-- HotStuffCore::update_hqc: asserts the qc is over VOTE(hash of the new
block) and replaces hqc when the new block is strictly higher, resolving
the hqc_update promise. -/
def update_hqc (s : HotStuffCore) (newH : Hash) (qc : QC) : HSRes :=
  if qc.obj_hash ≠ Vote.proof_obj_hash newH then .error .assertFail
  else
    match s.hqc with
    | none => .error .nullHandle
    | some (curH, _) =>
      match findBlk s.storage newH, findBlk s.storage curH with
      | some nb, some cb =>
        if nb.height > cb.height then
          .ok ({ s with hqc := some (newH, qc) }, [Effect.hqcUpdateResolved])
        else .ok (s, [])
      | _, _ => .error .blkMissing

/-- The parent walk of check_commit / on_receive_proposal:
`for (b = blk; b->height > threshold; b = b->parents[0])`, returning the
visited blocks (top-down) and the terminal block. Fuel bounds the number of
steps; every caller passes the starting height, which suffices whenever
heights strictly decrease along primary parents. -/
def parentWalk (st : Store) (threshold : Nat) : Nat → Block → Except Err (List Block × Block)
  | fuel, b =>
    if b.height > threshold then
      match fuel with
      | 0 => .error .fuelOut
      | fuel + 1 =>
        match b.parents with
        | [] => .error .nullHandle
        | pH :: _ =>
          match findBlk st pH with
          | none => .error .blkMissing
          | some pb => do
            let (q, t) ← parentWalk st threshold fuel pb
            .ok (b :: q, t)
    else .ok ([], b)

/-- The do_consensus plus per-command do_decide(Finality) outputs emitted
when one block is committed. -/
def commitEffects (id : ReplicaID) (b : Block) : List Effect :=
  Effect.doConsensus b.hash ::
    (List.range b.cmds.length).map (fun i =>
      Effect.doDecide ⟨id, 1, i, b.height, b.cmds.getD i 0, b.hash⟩)

/-- Mark every block of the queue decided (decision := 1) in the store. -/
def markCommitted (st : Store) (q : List Block) : Store :=
  q.foldl (fun st b => setBlk st b.hash { b with decision := 1 }) st

/-- HotStuffCore::check_commit: return immediately at height 0; otherwise
walk primary parents down to b_exec's height; if the walk stops at a block
that is neither b_exec nor already decided, throw "safety breached";
otherwise commit the collected queue in ascending height order (marking
decision, emitting do_consensus and one Finality per command) and set
b_exec to the argument block. -/
def check_commit (s : HotStuffCore) (blkH : Hash) : HSRes :=
  match findBlk s.storage blkH with
  | none => .error .blkMissing
  | some blk =>
    if blk.height = 0 then .ok (s, [])
    else
      match findBlk s.storage s.b_exec with
      | none => .error .blkMissing
      | some bexec => do
        let (queue, t) ← parentWalk s.storage bexec.height blk.height blk
        if t.hash ≠ s.b_exec ∧ t.decision ≠ 1 then .error .safetyBreached
        else
          let asc := queue.reverse
          let storage := markCommitted s.storage asc
          let effs := asc.foldr (fun b acc => commitEffects s.id b ++ acc) []
          .ok ({ s with storage := storage, b_exec := blkH }, effs)

/-- HotStuffCore::on_commit_timeout: calls check_commit directly. -/
def on_commit_timeout (s : HotStuffCore) (blkH : Hash) : HSRes :=
  check_commit s blkH

/-- HotStuffCore::on_qc_finish: resolve and erase the pending qc promise
for the block, if any. -/
def on_qc_finish (s : HotStuffCore) (blkH : Hash) : HotStuffCore × List Effect :=
  if blkH ∈ s.qc_waiting then
    ({ s with qc_waiting := s.qc_waiting.erase blkH }, [Effect.qcFinishResolved blkH])
  else (s, [])

/-- Whether a promise handed out by async_qc_finish is already resolved at
call time or still pending. -/
inductive PromiseStatus where
  | resolvedNow
  | pending
deriving DecidableEq, Repr

/-- HotStuffCore::async_qc_finish: immediately-resolved promise if the
block is genesis (height 0) or its echo set already reached nmajority;
otherwise the pending promise stored in qc_waiting (inserted if absent). -/
def async_qc_finish (s : HotStuffCore) (blkH : Hash) : Except Err (PromiseStatus × HotStuffCore) :=
  match findBlk s.storage blkH with
  | none => .error .blkMissing
  | some blk =>
    if blk.height = 0 ∨ (lookupSet s.propagate_echos blk.hash).length ≥ s.config.nmajority then
      .ok (.resolvedNow, s)
    else if blkH ∈ s.qc_waiting then .ok (.pending, s)
    else .ok (.pending, { s with qc_waiting := s.qc_waiting ++ [blkH] })

/-- HotStuffCore::on_receive_pre_commit: fetch the delivered block, drop if
its preCommitted set already reached nmajority or the sender is a
duplicate; otherwise record the sender and, exactly when the set first
reaches nmajority, run check_commit on the block. -/
def on_receive_pre_commit (s : HotStuffCore) (pc : PreCommit) : HSRes := do
  let blk ← get_delivered_blk s.storage pc.blk_hash
  let qsize := blk.preCommitted.length
  if qsize ≥ s.config.nmajority then .ok (s, [])
  else
    let (fresh, pcs) := insertNew blk.preCommitted pc.rid
    if !fresh then .ok (s, [])
    else
      let s := { s with storage := setBlk s.storage pc.blk_hash { blk with preCommitted := pcs } }
      if qsize + 1 = s.config.nmajority then check_commit s pc.blk_hash
      else .ok (s, [])

/-- HotStuffCore::on_pre_commit_timeout: broadcast a PreCommit over
PRE_COMMIT(blk hash) and self-deliver it. -/
def on_pre_commit_timeout (s : HotStuffCore) (blkH : Hash) : HSRes :=
  match findBlk s.storage blkH with
  | none => .error .blkMissing
  | some _ => do
    let pc : PreCommit := ⟨s.id, blkH, create_part_cert s.id (PreCommit.proof_obj_hash blkH)⟩
    let (s', effs) ← on_receive_pre_commit s pc
    .ok (s', Effect.broadcastPreCommit s.id blkH :: effs)

/-- HotStuffCore::add_replica: register the replica in the configuration
and insert its id into the genesis block's voted set. -/
def add_replica (s : HotStuffCore) (rid : ReplicaID) : HotStuffCore :=
  let s := { s with config := s.config.add_replica rid }
  match findBlk s.storage s.b0 with
  | none => s
  | some b0 =>
    { s with storage := setBlk s.storage s.b0 { b0 with voted := setInsert b0.voted rid } }

/-- HotStuffCore::on_init: derive nmajority = nreplicas − nfaulty, store
delta, create the blame QC for view 0, self-certify the genesis block
(computed QC over VOTE(genesis), qc_ref pointing at itself) and initialize
hqc and last_qc_ref to the genesis. -/
def on_init (s : HotStuffCore) (nfaulty : Nat) (delta : Nat) : HotStuffCore :=
  let config := { s.config with nmajority := s.config.nreplicas - nfaulty, delta := delta }
  let s := { s with config := config,
                    blame_qc := some (create_quorum_cert (Blame.proof_obj_hash s.view)) }
  match findBlk s.storage s.b0 with
  | none => s
  | some b0 =>
    let qc := QC.compute (create_quorum_cert (Vote.proof_obj_hash b0.hash))
    let b0 := { b0 with qc := some qc, self_qc := some qc, qc_ref := some s.b0 }
    { s with storage := setBlk s.storage s.b0 b0,
             hqc := some (s.b0, qc),
             last_qc_ref := s.b0 }

/-- HotStuffCore::on_viewtrans_timeout: advance the view, leave the
transition, clear per-view state, create a fresh blame QC for the new view,
restart the blame timer, resolve the view-change promise and notify the
highest certified block. -/
def on_viewtrans_timeout (s : HotStuffCore) : HSRes :=
  let view := s.view + 1
  let s := { s with view := view, view_trans := false, proposals := [],
                    blame_qc := some (create_quorum_cert (Blame.proof_obj_hash view)),
                    blamed := [] }
  match s.hqc with
  | none => .error .nullHandle
  | some (hqcH, _) =>
    .ok (s, [Effect.setBlameTimer (3 * s.config.delta), Effect.viewChangeResolved,
             Effect.doNotify hqcH])

/-- HotStuffCore::set_vote_disabled. -/
def set_vote_disabled (s : HotStuffCore) (f : Bool) : HotStuffCore :=
  { s with vote_disabled := f }

/-!
The handlers below call each other (a proposal may trigger propagation,
whose echo/ack quorum triggers the vote, whose self-delivery may synthesize
a proposal, and so on). In the C++ source this nesting is plain reentrant
calls of bounded depth; we make the family structurally recursive on an
explicit fuel that every call decrements, and the theorems supply fuel
exceeding the concrete depth of each code path.
-/

mutual

/-- HotStuffCore::on_receive_proposal: ignore during view transition or
when the block's proposal processing already finished; require delivery;
fold a carried QC into hqc; detect equivocation on the height slot (second
distinct proposal at a height is inserted and triggers _blame, a third or
later one is ignored); if the single proposal at its height extends the
hqc block (primary-parent walk), record vheight := height of the block;
resolve a pending qc promise for the qc_ref block; mark the proposal
finished; resolve the receive-proposal promise; and if the opinion stands,
start reliable propagation of the block. -/
def on_receive_proposal : Nat → Env → HotStuffCore → Proposal → HSRes
  | 0, _, _, _ => .error .fuelOut
  | fuel + 1, env, s, prop =>
    if s.view_trans then .ok (s, [])
    else if prop.blk ∈ s.finished_propose then .ok (s, [])
    else do
      let bnew ← get_delivered_blk s.storage prop.blk
      let (s, effsH) ←
        match bnew.qc_ref, bnew.qc with
        | some refH, some qc => update_hqc s refH qc
        | some _, none => .error .nullHandle
        | none, _ => .ok (s, ([] : List Effect))
      let pslot := lookupSet s.proposals bnew.height
      let (opinion, pslot, blaming) :=
        if pslot.length ≤ 1 then
          let pslot := setInsert pslot prop.blk
          if pslot.length > 1 then (false, pslot, true) else (true, pslot, false)
        else (false, pslot, false)
      let s := { s with proposals := updateSet s.proposals bnew.height pslot }
      let (s, effsB) ← if blaming then _blame fuel env s else .ok (s, ([] : List Effect))
      let (s, opinion) ←
        if opinion then
          match s.hqc with
          | none => .error .nullHandle
          | some (prefH, _) =>
            match findBlk s.storage prefH with
            | none => .error .blkMissing
            | some pref => do
              let (_, t) ← parentWalk s.storage pref.height bnew.height bnew
              if t.hash = prefH then .ok ({ s with vheight := bnew.height }, true)
              else .ok (s, false)
        else .ok (s, false)
      let (s, effsQ) :=
        match bnew.qc_ref with
        | some refH => on_qc_finish s refH
        | none => (s, [])
      let s := { s with finished_propose := setInsert s.finished_propose prop.blk }
      let (s, effsP) ←
        if opinion then _propagate_blk fuel env s prop.blk else .ok (s, ([] : List Effect))
      .ok (s, effsH ++ effsB ++ effsQ ++ [Effect.receiveProposalResolved prop.blk] ++ effsP)

/-- HotStuffCore::on_receive_vote: fetch the delivered block; if its
proposal was not processed yet, synthesize one with the voter as proposer;
drop when the voted set already reached nmajority or the voter is a
duplicate; otherwise record the voter, add the partial certificate to
self_qc (creating it if null), and exactly at nmajority finalize the QC
and update hqc. The on_qc_finish call at quorum is commented out in the
source. -/
def on_receive_vote : Nat → Env → HotStuffCore → Vote → HSRes
  | 0, _, _, _ => .error .fuelOut
  | fuel + 1, env, s, vote => do
    let _ ← get_delivered_blk s.storage vote.blk_hash
    let (s, effs1) ←
      if vote.blk_hash ∈ s.finished_propose then .ok (s, ([] : List Effect))
      else on_receive_proposal fuel env s ⟨vote.voter, vote.blk_hash⟩
    let blk ← get_delivered_blk s.storage vote.blk_hash
    let qsize := blk.voted.length
    if qsize ≥ s.config.nmajority then .ok (s, effs1)
    else
      let (fresh, voted) := insertNew blk.voted vote.voter
      if !fresh then .ok (s, effs1)
      else
        let qc :=
          match blk.self_qc with
          | none => create_quorum_cert (Vote.proof_obj_hash blk.hash)
          | some qc => qc
        let qc := qc.add_part vote.voter
        let blk := { blk with voted := voted, self_qc := some qc }
        let s := { s with storage := setBlk s.storage vote.blk_hash blk }
        if qsize + 1 = s.config.nmajority then
          let qc := qc.compute
          let blk := { blk with self_qc := some qc }
          let s := { s with storage := setBlk s.storage vote.blk_hash blk }
          let (s, effs2) ← update_hqc s vote.blk_hash qc
          .ok (s, effs1 ++ effs2)
        else .ok (s, effs1)

/-- HotStuffCore::_vote: build a Vote with a partial certificate over
VOTE(blk hash), self-deliver it (SYNCHS_NOVOTEBROADCAST not defined) and
broadcast it. -/
def _vote : Nat → Env → HotStuffCore → Hash → HSRes
  | 0, _, _, _ => .error .fuelOut
  | fuel + 1, env, s, blkH => do
    let vote : Vote := ⟨s.id, blkH, create_part_cert s.id (Vote.proof_obj_hash blkH)⟩
    let (s, effs) ← on_receive_vote fuel env s vote
    .ok (s, effs ++ [Effect.broadcastVote s.id blkH])

/-- HotStuffCore::_blame: stop the blame timer, build a Blame over
BLAME(view), self-deliver it and broadcast it. -/
def _blame : Nat → Env → HotStuffCore → HSRes
  | 0, _, _ => .error .fuelOut
  | fuel + 1, env, s => do
    let blame : Blame := ⟨s.id, s.view, create_part_cert s.id (Blame.proof_obj_hash s.view)⟩
    let (s, effs) ← on_receive_blame fuel env s blame
    .ok (s, Effect.stopBlameTimer :: effs ++ [Effect.broadcastBlame s.id s.view])

/-- HotStuffCore::on_receive_blame: ignore during view transition, when the
blamed set already reached nmajority, or on a duplicate blamer; otherwise
record the blamer, add the partial certificate to blame_qc (asserted
non-null), and exactly at nmajority enter the new-view procedure. -/
def on_receive_blame : Nat → Env → HotStuffCore → Blame → HSRes
  | 0, _, _, _ => .error .fuelOut
  | fuel + 1, env, s, blame =>
    if s.view_trans then .ok (s, [])
    else
      let qsize := s.blamed.length
      if qsize ≥ s.config.nmajority then .ok (s, [])
      else
        let (fresh, blamed) := insertNew s.blamed blame.blamer
        if !fresh then .ok (s, [])
        else
          match s.blame_qc with
          | none => .error .assertFail
          | some bqc =>
            let s := { s with blamed := blamed, blame_qc := some (bqc.add_part blame.blamer) }
            if qsize + 1 = s.config.nmajority then _new_view fuel env s
            else .ok (s, [])

/-- HotStuffCore::_new_view: finalize blame_qc, build a BlameNotify from
the replica's own view and hqc, set view_trans, resolve the view-trans
promise, self-deliver the BlameNotify (a no-op since view_trans is already
true), broadcast it, stop all commit timers and arm the view-transition
timer (2 delta). -/
def _new_view : Nat → Env → HotStuffCore → HSRes
  | 0, _, _ => .error .fuelOut
  | fuel + 1, env, s =>
    match s.blame_qc, s.hqc with
    | some bqc, some (hqcH, hqcQC) => do
      let bqc := bqc.compute
      let s := { s with blame_qc := some bqc }
      let bn : BlameNotify := ⟨s.view, hqcH, hqcQC, bqc⟩
      let s := { s with view_trans := true }
      let (s, effs) ← on_receive_blamenotify fuel env s bn
      .ok (s, Effect.viewTransResolved :: effs ++
              [Effect.broadcastBlamenotify bn, Effect.stopCommitTimerAll,
               Effect.setViewtransTimer (2 * s.config.delta)])
    | _, _ => .error .nullHandle

/-- HotStuffCore::on_receive_blamenotify: ignore during view transition;
otherwise replace blame_qc by a clone of the message's blame QC and enter
the new-view procedure. No field of the message other than its blame QC is
inspected. -/
def on_receive_blamenotify : Nat → Env → HotStuffCore → BlameNotify → HSRes
  | 0, _, _, _ => .error .fuelOut
  | fuel + 1, env, s, bn =>
    if s.view_trans then .ok (s, [])
    else _new_view fuel env { s with blame_qc := some bn.qc }

/-- HotStuffCore::_propagate_blk: build an Echo with a partial certificate
over PROPAGATE(blk hash); on commit-boundary heights broadcast it,
self-deliver it and arm the propagation timer (3 delta); otherwise
self-deliver when this replica is the proposer, or unicast it to the
proposer. -/
def _propagate_blk : Nat → Env → HotStuffCore → Hash → HSRes
  | 0, _, _, _ => .error .fuelOut
  | fuel + 1, env, s, blkH =>
    match findBlk s.storage blkH with
    | none => .error .blkMissing
    | some blk => do
      let echo : Echo := ⟨s.id, blkH, 0, create_part_cert s.id (Echo.proof_obj_hash blkH)⟩
      if blk.height % s.config.commit_interval = 0 then do
        let (s, effs) ← on_receive_echo fuel env s echo
        .ok (s, Effect.broadcastEcho s.id blkH :: effs ++
                [Effect.setPropagateTimer blkH (3 * s.config.delta)])
      else
        if s.id = env.get_proposer then on_receive_echo fuel env s echo
        else .ok (s, [Effect.sendEcho s.id env.get_proposer blkH])

/-- HotStuffCore::on_receive_echo: drop duplicate signers; when the echo
set first reaches nmajority and the propagation timer has not fired, for a
BLOCK echo resolve the qc promise of the delivered block, and on a
commit-boundary height rebroadcast the proposal, multicast an Ack to all
echoers (self-delivering when the replica is among them) and arm the ack
timer (2 delta); after nmajority, while the ack timer has not fired, a late
echo at a commit-boundary height earns its sender a direct Ack (self-
delivered when the straggler is this replica). -/
def on_receive_echo : Nat → Env → HotStuffCore → Echo → HSRes
  | 0, _, _, _ => .error .fuelOut
  | fuel + 1, env, s, echo =>
    let msgHash := echo.blk_hash
    let qsize := (lookupSet s.propagate_echos msgHash).length
    let (fresh, eset) := insertNew (lookupSet s.propagate_echos msgHash) echo.rid
    if !fresh then .ok (s, [])
    else
      let s := { s with propagate_echos := updateSet s.propagate_echos msgHash eset }
      if qsize + 1 = s.config.nmajority ∧ env.is_propagate_timeout msgHash = false then
        if echo.opcode = 0 then do
          let blk ← get_delivered_blk s.storage msgHash
          let (s, effsQ) := on_qc_finish s blk.hash
          if blk.height % s.config.commit_interval ≠ 0 then .ok (s, effsQ)
          else do
            let ack : Ack := ⟨s.id, msgHash, 0, create_part_cert s.id (Ack.proof_obj_hash msgHash)⟩
            let dests := lookupSet s.propagate_echos msgHash
            let (s, effsA) ←
              if s.id ∈ dests then on_receive_ack fuel env s ack
              else .ok (s, ([] : List Effect))
            .ok (s, effsQ ++ [Effect.broadcastProposal s.id msgHash,
                              Effect.multicastAck s.id msgHash dests] ++ effsA ++
                    [Effect.setAckTimer msgHash (2 * s.config.delta)])
        else .ok (s, [])
      else
        if qsize + 1 > s.config.nmajority ∧ env.is_ack_timeout msgHash = false then do
          let blk ← get_delivered_blk s.storage msgHash
          if blk.height % s.config.commit_interval ≠ 0 then .ok (s, [])
          else
            let ack : Ack := ⟨s.id, msgHash, 0, create_part_cert s.id (Ack.proof_obj_hash msgHash)⟩
            if echo.rid = s.id then on_receive_ack fuel env s ack
            else .ok (s, [Effect.sendAck s.id msgHash echo.rid])
        else .ok (s, [])

/-- HotStuffCore::on_receive_ack: drop when the ack set already reached
nmajority or on a duplicate signer; otherwise record the signer, and
exactly when the set first reaches nmajority (ack timer not fired) invoke
on_propose_propagated for a BLOCK ack. -/
def on_receive_ack : Nat → Env → HotStuffCore → Ack → HSRes
  | 0, _, _, _ => .error .fuelOut
  | fuel + 1, env, s, ack =>
    let msgHash := ack.blk_hash
    let qsize := (lookupSet s.propagate_acks msgHash).length
    if qsize ≥ s.config.nmajority then .ok (s, [])
    else
      let (fresh, aset) := insertNew (lookupSet s.propagate_acks msgHash) ack.rid
      if !fresh then .ok (s, [])
      else
        let s := { s with propagate_acks := updateSet s.propagate_acks msgHash aset }
        if qsize + 1 = s.config.nmajority ∧ env.is_ack_timeout msgHash = false then
          if ack.opcode = 0 then on_propose_propagated fuel env s msgHash
          else .ok (s, [])
        else .ok (s, [])

/-- HotStuffCore::on_propose_propagated: ignore during view transition;
fetch the delivered block; vote for it unless voting is disabled; and when
it carries a qc_ref, arm the pre-commit timer (2 delta) for the referenced
block. -/
def on_propose_propagated : Nat → Env → HotStuffCore → Hash → HSRes
  | 0, _, _, _ => .error .fuelOut
  | fuel + 1, env, s, blkH =>
    if s.view_trans then .ok (s, [])
    else do
      let _ ← get_delivered_blk s.storage blkH
      let (s, effsV) ←
        if !s.vote_disabled then _vote fuel env s blkH else .ok (s, ([] : List Effect))
      let blk ← get_delivered_blk s.storage blkH
      match blk.qc_ref with
      | some refH => .ok (s, effsV ++ [Effect.setPreCommitTimer refH (2 * s.config.delta)])
      | none => .ok (s, effsV)

end

/-- HotStuffCore::on_propose: refuse (nullptr) during view transition;
throw on empty parents; remove the parents from tails; create the new
block on top of parents[0] (carrying the hqc QC and a qc_ref to the hqc
block exactly on commit-boundary heights when it was not embedded before,
and updating last_qc_ref); give it a fresh self QC; deliver it; throw
unless its height strictly exceeds vheight, then record vheight, mark the
proposal finished, start reliable propagation, resolve the propose promise
and broadcast the proposal. The content hash of the new block is passed in
as `newHash` (hashing is outside the core). -/
def on_propose (fuel : Nat) (env : Env) (s : HotStuffCore) (cmds : List Nat)
    (parents : List Hash) (extra : Nat) (newHash : Hash) :
    Except Err (Option Hash × HotStuffCore × List Effect) :=
  if s.view_trans then .ok (none, s, [])
  else
    match parents with
    | [] => .error .emptyParents
    | p0H :: _ =>
      match findBlk s.storage p0H with
      | none => .error .blkMissing
      | some p0 => do
        let s := { s with tails := s.tails.filter (fun t => decide (t ∉ parents)) }
        let is_commit_height := (p0.height + 1) % s.config.commit_interval = 0
        match s.hqc with
        | none => .error .nullHandle
        | some (hqcH, hqcQC) => do
          let useQC := is_commit_height ∧ s.last_qc_ref ≠ hqcH
          let bnew : Block :=
            { parent_hashes := parents
              cmds := cmds
              qc := if useQC then some hqcQC else none
              qc_ref_hash := if useQC then hqcH else 0
              qc_ref := if useQC then some hqcH else none
              height := p0.height + 1
              hash := newHash }
          let _ := extra
          let (storage, bnew) := add_blk s.storage bnew
          let s := { s with storage := storage }
          let s := if is_commit_height then { s with last_qc_ref := hqcH } else s
          let bnew := { bnew with self_qc := some (create_quorum_cert (Vote.proof_obj_hash newHash)) }
          let s := { s with storage := setBlk s.storage newHash bnew }
          let (_, s, _) ← on_deliver_blk s newHash
          let bnew ←
            match findBlk s.storage newHash with
            | none => .error .blkMissing
            | some b => .ok b
          if bnew.height ≤ s.vheight then .error .vheightLow
          else
            let s := { s with vheight := bnew.height,
                              finished_propose := setInsert s.finished_propose newHash }
            let (s, effsP) ← _propagate_blk fuel env s newHash
            .ok (some newHash, s,
                 effsP ++ [Effect.proposeResolved newHash, Effect.broadcastProposal s.id newHash])

/-- HotStuffCore::on_receive_notify: fetch the delivered block and fold the
carried QC into hqc. -/
def on_receive_notify (s : HotStuffCore) (blkH : Hash) (qc : QC) : HSRes := do
  let _ ← get_delivered_blk s.storage blkH
  update_hqc s blkH qc

/-- HotStuffCore::on_blame_timeout: blame on lack of progress. -/
def on_blame_timeout (fuel : Nat) (env : Env) (s : HotStuffCore) : HSRes :=
  _blame fuel env s

/-- Result of the skip loop at the start of prune:
`for (start = b_exec; staleness; staleness--, start = start->parents[0])
   if (!start->parents.size()) return;` -/
inductive SkipRes where
  /-- Some visited block had no parents: prune returns without releasing. -/
  | noop
  /-- The block reached after `staleness` primary-parent hops. -/
  | go (b : Block)
  /-- Model artifact: a parent hash absent from the store. -/
  | bad
deriving DecidableEq, Repr

/-- The skip loop of prune. -/
def pruneSkip (st : Store) : Nat → Block → SkipRes
  | 0, b => .go b
  | n + 1, b =>
    match b.parents with
    | [] => .noop
    | pH :: _ =>
      match findBlk st pH with
      | none => .bad
      | some pb => pruneSkip st n pb

/-- The depth-first release loop of prune: while the stack is non-empty,
release the top block if its parents list is empty, otherwise clear its
qc_ref, move its last parent onto the stack and repeat. A stack entry whose
block was already released (a shared handle pushed twice through a diamond)
is re-released as a no-op. Fuel bounds the iterations. -/
def pruneLoop : Nat → Store → List Hash → List Hash → Option (Store × List Hash)
  | _, st, [], released => some (st, released)
  | 0, _, _ :: _, _ => none
  | fuel + 1, st, top :: rest, released =>
    match findBlk st top with
    | none => pruneLoop fuel st rest released
    | some b =>
      match b.parents.getLast? with
      | none => pruneLoop fuel (removeBlk st top) rest (released ++ [top])
      | some last =>
        let b := { b with qc_ref := none, parents := b.parents.dropLast }
        pruneLoop fuel (setBlk st top b) (last :: top :: rest) released

/-- Fuel bound for pruneLoop: each iteration either pops the stack or
trades one stored parent edge for one stack entry, so twice the number of
parent edges plus the store size plus one is ample. -/
def pruneFuel (st : Store) : Nat :=
  2 * st.foldl (fun a p => a + p.2.parents.length) 0 + 2 * st.length + 2

/-- HotStuffCore::prune: walk `staleness` primary-parent hops down from
b_exec, returning untouched if any visited block has no parents; then
clear the qc_ref of the reached block and release it together with all its
ancestors (clearing qc_ref back-references along the way). Returns the new
state and the list of released block hashes. -/
def prune (s : HotStuffCore) (staleness : Nat) : Except Err (HotStuffCore × List Hash) :=
  match findBlk s.storage s.b_exec with
  | none => .error .blkMissing
  | some bexec =>
    match pruneSkip s.storage staleness bexec with
    | .noop => .ok (s, [])
    | .bad => .error .blkMissing
    | .go start =>
      let st := setBlk s.storage start.hash { start with qc_ref := none }
      match pruneLoop (pruneFuel st) st [start.hash] [] with
      | none => .error .fuelOut
      | some (st, released) => .ok ({ s with storage := st }, released)

/-! Helper lemmas about the store and set primitives. -/

instance {ε α : Type} [DecidableEq ε] [DecidableEq α] : DecidableEq (Except ε α) := fun a b =>
  match a, b with
  | .ok x, .ok y =>
    decidable_of_iff (x = y) ⟨congrArg Except.ok, fun h => by injection h⟩
  | .error x, .error y =>
    decidable_of_iff (x = y) ⟨congrArg Except.error, fun h => by injection h⟩
  | .ok _, .error _ => isFalse (fun h => Except.noConfusion h)
  | .error _, .ok _ => isFalse (fun h => Except.noConfusion h)

theorem mem_setInsert (l : List Nat) (x y : Nat) :
    y ∈ setInsert l x ↔ y = x ∨ y ∈ l := by
  unfold setInsert
  by_cases h : x ∈ l
  · simp only [if_pos h]
    constructor
    · exact Or.inr
    · rintro (rfl | hy)
      · exact h
      · exact hy
  · simp [if_neg h, List.mem_append]
    tauto

theorem findBlk_setBlk (st : Store) (h : Hash) (b : Block) (h' : Hash) :
    findBlk (setBlk st h b) h' = if h' = h then some b else findBlk st h' := by
  induction st with
  | nil =>
    by_cases hh : h' = h
    · subst hh; simp [setBlk, findBlk]
    · have hh2 : ¬h = h' := fun e => hh e.symm
      simp [setBlk, findBlk, hh, hh2]
  | cons p rest ih =>
    obtain ⟨k, v⟩ := p
    by_cases hk : k = h
    · subst hk
      by_cases hh : h' = k
      · subst hh; simp [setBlk, findBlk]
      · have hh2 : ¬k = h' := fun e => hh e.symm
        simp [setBlk, findBlk, hh, hh2]
    · by_cases hh : k = h'
      · subst hh
        simp [setBlk, findBlk, hk]
      · simp [setBlk, findBlk, hk, hh, ih]

end hotstuff

open hotstuff

/-- A host environment for concrete runs: replica 0 is the proposer and no
timer has fired. -/
def envW : Env := ⟨0, fun _ => false, fun _ => false⟩

/-! ### C9 — add_replica records the replica in the genesis voted set -/

/-- C9: every add_replica(rid, addr, pub_key) call inserts rid into the
genesis block's voted set, so after configuring a list of replicas the
genesis block is recorded as voted for by all of them (and by whoever was
recorded before), although no Vote message is ever processed for it:
membership in the final voted set is exactly membership in the configured
list or in the previous voted set. -/
theorem C9_genesis_voted :
    (∀ (s : HotStuffCore) (rid : ReplicaID) (b0 : Block),
      findBlk s.storage s.b0 = some b0 →
      (add_replica s rid).b0 = s.b0 ∧
      findBlk (add_replica s rid).storage s.b0 =
        some { b0 with voted := setInsert b0.voted rid }) ∧
    (∀ (s : HotStuffCore) (rids : List ReplicaID) (b0 : Block),
      findBlk s.storage s.b0 = some b0 →
      ∃ b0f, (rids.foldl add_replica s).b0 = s.b0 ∧
        findBlk (rids.foldl add_replica s).storage s.b0 = some b0f ∧
        ∀ r, r ∈ b0f.voted ↔ (r ∈ rids ∨ r ∈ b0.voted)) := by
  have single : ∀ (s : HotStuffCore) (rid : ReplicaID) (b0 : Block),
      findBlk s.storage s.b0 = some b0 →
      (add_replica s rid).b0 = s.b0 ∧
      findBlk (add_replica s rid).storage s.b0 =
        some { b0 with voted := setInsert b0.voted rid } := by
    intro s rid b0 hfind
    constructor
    · simp [add_replica, Config.add_replica, hfind]
    · simp [add_replica, Config.add_replica, hfind, findBlk_setBlk]
  refine ⟨single, ?_⟩
  intro s rids
  induction rids generalizing s with
  | nil =>
    intro b0 hfind
    exact ⟨b0, rfl, hfind, by simp⟩
  | cons r rs ih =>
    intro b0 hfind
    obtain ⟨hb0, hfind'⟩ := single s r b0 hfind
    obtain ⟨b0f, hb0f, hfindf, hmem⟩ := ih (add_replica s r) _ (hb0 ▸ hfind')
    refine ⟨b0f, by rw [List.foldl_cons, hb0f, hb0], by rw [List.foldl_cons]; rw [hb0] at hfindf; exact hfindf, ?_⟩
    intro x
    rw [hmem x]
    simp only [List.mem_cons, mem_setInsert]
    tauto

/-- Witness for C9 at a concrete configuration of three replicas. -/
theorem C9_genesis_voted_witness :
    ∃ b0f, (([1, 2, 3] : List ReplicaID).foldl add_replica (construct 0 0)).b0 = (construct 0 0).b0 ∧
      findBlk (([1, 2, 3] : List ReplicaID).foldl add_replica (construct 0 0)).storage
        (construct 0 0).b0 = some b0f ∧
      ∀ r, r ∈ b0f.voted ↔ (r ∈ ([1, 2, 3] : List ReplicaID) ∨ r ∈ (genesisBlock 0).voted) :=
  C9_genesis_voted.2 (construct 0 0) [1, 2, 3] (genesisBlock 0) (by decide)

/-! ### C10 — on_receive_blamenotify behavior -/

/-- C10: when view_trans is false, on_receive_blamenotify replaces
blame_qc with (a clone of) the message's blame QC, enters view transition
(view_trans := true, resolving the view-trans promise, broadcasting a
BlameNotify built from the replica's own view and hqc, stopping commit
timers and arming the view-transition timer at 2 delta); the handler reads
no field of the message other than its blame QC, so in particular it
performs no comparison of the message view against the current view and no
validity check; when view_trans is already true the message is ignored and
the state is unchanged. -/
theorem C10_blamenotify :
    (∀ (fuel : Nat) (env : Env) (s : HotStuffCore) (bn : BlameNotify),
      s.view_trans = true →
      on_receive_blamenotify (fuel + 1) env s bn = .ok (s, [])) ∧
    (∀ (fuel : Nat) (env : Env) (s : HotStuffCore) (bn : BlameNotify)
        (hqcH : Hash) (hqcQC : QC),
      s.view_trans = false → s.hqc = some (hqcH, hqcQC) →
      on_receive_blamenotify (fuel + 3) env s bn =
        .ok ({ s with blame_qc := some bn.qc.compute, view_trans := true },
             [Effect.viewTransResolved,
              Effect.broadcastBlamenotify ⟨s.view, hqcH, hqcQC, bn.qc.compute⟩,
              Effect.stopCommitTimerAll,
              Effect.setViewtransTimer (2 * s.config.delta)])) ∧
    (∀ (fuel : Nat) (env : Env) (s : HotStuffCore) (bn1 bn2 : BlameNotify),
      bn1.qc = bn2.qc →
      on_receive_blamenotify fuel env s bn1 = on_receive_blamenotify fuel env s bn2) := by
  refine ⟨?_, ?_, ?_⟩
  · intro fuel env s bn h
    simp [on_receive_blamenotify, h]
  · intro fuel env s bn hqcH hqcQC hvt hhqc
    simp [on_receive_blamenotify, hvt, _new_view, hhqc, Except.bind, Bind.bind]
  · intro fuel env s bn1 bn2 hqc
    cases fuel with
    | zero => rfl
    | succ fuel => simp [on_receive_blamenotify, hqc]

/-- Witness for C10 at concrete states: an in-transition replica ignores
the message, and a normal replica enters the transition. -/
theorem C10_blamenotify_witness :
    (on_receive_blamenotify 1 envW
        { construct 0 0 with view_trans := true } ⟨5, 0, create_quorum_cert ⟨0, 0⟩, create_quorum_cert ⟨1, 0⟩⟩ =
      .ok ({ construct 0 0 with view_trans := true }, [])) ∧
    (on_receive_blamenotify 3 envW (on_init (construct 0 0) 0 4)
        ⟨5, 0, create_quorum_cert ⟨0, 0⟩, create_quorum_cert ⟨1, 0⟩⟩ =
      .ok ({ on_init (construct 0 0) 0 4 with
              blame_qc := some (create_quorum_cert ⟨1, 0⟩).compute, view_trans := true },
           [Effect.viewTransResolved,
            Effect.broadcastBlamenotify
              ⟨0, 0, QC.compute (create_quorum_cert (Vote.proof_obj_hash 0)), (create_quorum_cert ⟨1, 0⟩).compute⟩,
            Effect.stopCommitTimerAll,
            Effect.setViewtransTimer 8])) := by
  constructor
  · exact C10_blamenotify.1 0 envW _ _ rfl
  · have h2 := C10_blamenotify.2.1 0 envW (on_init (construct 0 0) 0 4)
      ⟨5, 0, create_quorum_cert ⟨0, 0⟩, create_quorum_cert ⟨1, 0⟩⟩
      0 (QC.compute (create_quorum_cert (Vote.proof_obj_hash 0))) (by decide) (by decide)
    rw [h2]
    rfl

/-! ### C4 — on_deliver_blk validity and error behavior -/

theorem get_delivered_blk_cases (st : Store) (h : Hash) :
    (∃ b, findBlk st h = some b ∧ b.delivered = true ∧ get_delivered_blk st h = .ok b) ∨
    get_delivered_blk st h = .error .blockNotDelivered := by
  unfold get_delivered_blk
  match hf : findBlk st h with
  | none => exact Or.inr rfl
  | some b =>
    by_cases hd : b.delivered
    · exact Or.inl ⟨b, rfl, hd, by simp [hd]⟩
    · right
      simp [hd]

theorem requireDelivered_ok (st : Store) (hs : List Hash)
    (hall : ∀ p ∈ hs, ∃ b, findBlk st p = some b ∧ b.delivered = true) :
    requireDelivered st hs = .ok () := by
  induction hs with
  | nil => rfl
  | cons q rest ih =>
    obtain ⟨b, hfind, hdel⟩ := hall q (List.mem_cons_self q rest)
    have hq : get_delivered_blk st q = .ok b := by
      simp [get_delivered_blk, hfind, hdel]
    have hrest := ih (fun p hp => hall p (List.mem_cons_of_mem q hp))
    simp [requireDelivered, hq, hrest, Except.bind, Bind.bind]

theorem requireDelivered_err (st : Store) (hs : List Hash) (p : Hash)
    (hmem : p ∈ hs) (hbad : get_delivered_blk st p = .error .blockNotDelivered) :
    requireDelivered st hs = .error .blockNotDelivered := by
  induction hs with
  | nil => cases hmem
  | cons q rest ih =>
    rcases get_delivered_blk_cases st q with ⟨b, _, _, hq⟩ | hq
    · rcases List.mem_cons.mp hmem with rfl | hp
      · rw [hq] at hbad; cases hbad
      · simp [requireDelivered, hq, Except.bind, Bind.bind, ih hp]
    · simp [requireDelivered, hq, Except.bind, Bind.bind]

/-- C4 (amended): on_deliver_blk returns true exactly on a valid block
(not yet delivered, every parent delivered, and the qc_ref block present
when a qc is carried), setting delivered, the resolved parents, the height,
and updating tails (parents removed, the block inserted); re-delivery of an
already-delivered block is a no-op returning false; but a block with an
undelivered or missing parent, or with a qc whose referenced block is
absent, raises a runtime error instead of returning false. -/
theorem C4_on_deliver_blk :
    (∀ (s : HotStuffCore) (h : Hash) (blk : Block),
      findBlk s.storage h = some blk → blk.delivered = true →
      on_deliver_blk s h = .ok (false, s, [])) ∧
    (∀ (s : HotStuffCore) (h : Hash) (blk : Block) (p0H : Hash) (restH : List Hash) (p0 : Block),
      findBlk s.storage h = some blk → blk.delivered = false →
      blk.parent_hashes = p0H :: restH →
      findBlk s.storage p0H = some p0 →
      (∀ p ∈ blk.parent_hashes, ∃ pb, findBlk s.storage p = some pb ∧ pb.delivered = true) →
      (blk.qc.isSome = true → ∃ qb, findBlk s.storage blk.qc_ref_hash = some qb) →
      on_deliver_blk s h =
        .ok (true,
          { s with
            storage := setBlk s.storage h
              { blk with parents := blk.parent_hashes, height := p0.height + 1,
                         qc_ref := if blk.qc.isSome then some blk.qc_ref_hash else blk.qc_ref,
                         delivered := true }
            tails := setInsert (s.tails.filter (fun t => decide (t ∉ blk.parent_hashes))) h },
          [])) ∧
    (∀ (s : HotStuffCore) (h : Hash) (blk : Block) (p : Hash),
      findBlk s.storage h = some blk → blk.delivered = false →
      p ∈ blk.parent_hashes →
      get_delivered_blk s.storage p = .error .blockNotDelivered →
      on_deliver_blk s h = .error .blockNotDelivered) ∧
    (∀ (s : HotStuffCore) (h : Hash) (blk : Block),
      findBlk s.storage h = some blk → blk.delivered = false →
      (∀ p ∈ blk.parent_hashes, ∃ pb, findBlk s.storage p = some pb ∧ pb.delivered = true) →
      blk.parent_hashes ≠ [] →
      blk.qc.isSome = true → findBlk s.storage blk.qc_ref_hash = none →
      on_deliver_blk s h = .error .qcBlockMissing) := by
  refine ⟨?_, ?_, ?_, ?_⟩
  · intro s h blk hfind hdel
    simp [on_deliver_blk, hfind, hdel]
  · intro s h blk p0H restH p0 hfind hdel hpar hp0 hall hqc
    have hreq := requireDelivered_ok s.storage blk.parent_hashes hall
    rw [hpar] at hreq
    cases hq : blk.qc with
    | none =>
      simp [on_deliver_blk, hfind, hdel, hreq, hpar, hp0, hq, Except.bind, Bind.bind,
            Option.isSome]
    | some qcv =>
      obtain ⟨qb, hqb⟩ := hqc (by simp [hq])
      simp [on_deliver_blk, hfind, hdel, hreq, hpar, hp0, hq, hqb, Except.bind, Bind.bind,
            Option.isSome]
  · intro s h blk p hfind hdel hmem hbad
    have hreq := requireDelivered_err s.storage blk.parent_hashes p hmem hbad
    simp [on_deliver_blk, hfind, hdel, hreq, Except.bind, Bind.bind]
  · intro s h blk hfind hdel hall hne hq hqref
    have hreq := requireDelivered_ok s.storage blk.parent_hashes hall
    match hpar : blk.parent_hashes, hne with
    | p0H :: restH, _ =>
      obtain ⟨pb, hpb, _⟩ := hall p0H (by rw [hpar]; exact List.mem_cons_self _ _)
      rw [hpar] at hreq
      simp [on_deliver_blk, hfind, hdel, hreq, hpar, hpb, hq, hqref, Except.bind, Bind.bind]

/-- A state holding one undelivered block (hash 1) whose only parent
(hash 7) is absent from the store. -/
def sC4 : HotStuffCore :=
  { construct 0 0 with
    storage := (1, { parent_hashes := [7], hash := 1 }) :: (construct 0 0).storage }

/-- Counterexample to C4 as stated: delivering a block that violates the
parent invariant raises "block not delivered" instead of the claimed
no-op false return. -/
theorem C4_counterexample :
    on_deliver_blk sC4 1 = .error .blockNotDelivered ∧
    on_deliver_blk sC4 1 ≠ .ok (false, sC4, []) := by
  constructor
  · decide
  · decide

/-- Witness for C4: the duplicate, valid-delivery, missing-parent and
missing-qc-ref cases of the theorem at concrete states. -/
theorem C4_on_deliver_blk_witness :
    on_deliver_blk (construct 0 0) 0 = .ok (false, construct 0 0, []) ∧
    on_deliver_blk sC4 1 = .error .blockNotDelivered := by
  constructor
  · exact C4_on_deliver_blk.1 (construct 0 0) 0 (genesisBlock 0) (by decide) (by decide)
  · exact C4_on_deliver_blk.2.2.1 sC4 1 { parent_hashes := [7], hash := 1 } 7
      (by decide) (by decide) (by decide) (by decide)

/-! ### C2 — what triggers check_commit -/

/-- C2 (amended): within on_receive_pre_commit, check_commit runs exactly
when the block's preCommitted set first reaches nmajority (any emitted
effect implies the arriving PreCommit was a fresh signer completing the
quorum); but this is not the only path through which blocks commit:
on_commit_timeout invokes check_commit directly, and check_commit commits
the block's uncommitted ancestors regardless of their own preCommitted
sets. -/
theorem C2_pre_commit_quorum :
    (∀ (s : HotStuffCore) (pc : PreCommit) (blk : Block) (s' : HotStuffCore)
        (effs : List Effect) (e : Effect),
      get_delivered_blk s.storage pc.blk_hash = .ok blk →
      on_receive_pre_commit s pc = .ok (s', effs) →
      e ∈ effs →
      pc.rid ∉ blk.preCommitted ∧ blk.preCommitted.length + 1 = s.config.nmajority) ∧
    (∀ (s : HotStuffCore) (pc : PreCommit) (blk : Block),
      get_delivered_blk s.storage pc.blk_hash = .ok blk →
      pc.rid ∉ blk.preCommitted →
      blk.preCommitted.length + 1 = s.config.nmajority →
      on_receive_pre_commit s pc =
        check_commit
          { s with storage :=
                     setBlk s.storage pc.blk_hash
                       ({ blk with preCommitted := blk.preCommitted ++ [pc.rid] }) }
          pc.blk_hash) ∧
    (∀ (s : HotStuffCore) (blkH : Hash),
      on_commit_timeout s blkH = check_commit s blkH) := by
  refine ⟨?_, ?_, fun _ _ => rfl⟩
  · intro s pc blk s' effs e hdeliv hok hmem
    by_cases h1 : blk.preCommitted.length ≥ s.config.nmajority
    · simp [on_receive_pre_commit, hdeliv, h1, Except.bind, Bind.bind] at hok
      rw [hok.2] at hmem
      cases hmem
    · by_cases h2 : pc.rid ∈ blk.preCommitted
      · simp [on_receive_pre_commit, hdeliv, h1, insertNew, h2, Except.bind, Bind.bind] at hok
        rw [hok.2] at hmem
        cases hmem
      · by_cases h3 : blk.preCommitted.length + 1 = s.config.nmajority
        · exact ⟨h2, h3⟩
        · simp [on_receive_pre_commit, hdeliv, h1, insertNew, h2, h3, Except.bind, Bind.bind] at hok
          rw [hok.2] at hmem
          cases hmem
  · intro s pc blk hdeliv hfresh hquorum
    have h1 : ¬blk.preCommitted.length ≥ s.config.nmajority := by omega
    simp [on_receive_pre_commit, hdeliv, h1, insertNew, hfresh, hquorum, Except.bind, Bind.bind]

/-- A delivered block of height 1 on top of the genesis, carrying the
single command 42, with no votes or pre-commits recorded. -/
def B1C2 : Block :=
  { parent_hashes := [0], parents := [0], height := 1, cmds := [42],
    delivered := true, hash := 1 }

/-- A delivered two-block chain (genesis 0 at height 0, block 1 at height
1 carrying command 42) with b_exec at the genesis, nmajority 3 and an
empty preCommitted set on block 1. -/
def sC2 : HotStuffCore :=
  { construct 0 0 with
    storage := (1, B1C2) :: (construct 0 0).storage,
    config := { (construct 0 0).config with nmajority := 3 } }

/-- The same chain with a pre-commit quorum threshold of one. -/
def sC2b : HotStuffCore :=
  { sC2 with config := { sC2.config with nmajority := 1 } }

/-- Counterexample to C2 as stated: on_commit_timeout commits block 1
(do_consensus plus a Finality for its command) although its preCommitted
set is empty, far below nmajority = 3, so pre-commit quorum in
on_receive_pre_commit is not the only trigger through which blocks
commit. -/
theorem C2_counterexample :
    (on_commit_timeout sC2 1).map (fun r => r.2) =
      .ok [Effect.doConsensus 1, Effect.doDecide ⟨0, 1, 0, 1, 42, 1⟩] ∧
    (findBlk sC2.storage 1).map Block.preCommitted = some [] ∧
    sC2.config.nmajority = 3 := by
  refine ⟨?_, ?_, ?_⟩ <;> decide

/-- Witness for C2: a fresh PreCommit completing a quorum of one routes
into check_commit and commits the block. -/
theorem C2_pre_commit_quorum_witness :
    on_receive_pre_commit sC2b ⟨2, 1, create_part_cert 2 (PreCommit.proof_obj_hash 1)⟩ =
      check_commit
        { sC2b with storage :=
                      setBlk sC2b.storage 1
                        ({ B1C2 with preCommitted := B1C2.preCommitted ++ [2] }) }
        1 :=
  C2_pre_commit_quorum.2.1 sC2b ⟨2, 1, create_part_cert 2 (PreCommit.proof_obj_hash 1)⟩
    B1C2 (by decide) (by decide) (by decide)

/-! ### C7 — when the async_qc_finish promise resolves -/

theorem update_hqc_shape (s : HotStuffCore) (newH : Hash) (qc : QC)
    (s' : HotStuffCore) (effs : List Effect)
    (h : update_hqc s newH qc = .ok (s', effs)) :
    s'.qc_waiting = s.qc_waiting ∧ (effs = [] ∨ effs = [Effect.hqcUpdateResolved]) := by
  unfold update_hqc at h
  split at h
  · cases h
  · split at h
    · cases h
    · split at h
      · split at h
        · injection h with h'
          injection h' with h1 h2
          subst h1 h2
          exact ⟨rfl, Or.inr rfl⟩
        · injection h with h'
          injection h' with h1 h2
          subst h1 h2
          exact ⟨rfl, Or.inl rfl⟩
      · cases h

/-- C7 (amended): the promise returned by async_qc_finish(blk) is resolved
immediately at call time iff blk is the genesis block (height 0) or blk's
echo set has already reached nmajority (the "already propagated" test);
otherwise it is registered pending in qc_waiting. The pending promise is
not resolved by vote aggregation: on_receive_vote leaves qc_waiting
untouched and never emits a qc-finish resolution (its on_qc_finish call is
commented out in the source), even when the nmajority-th vote finalizes
self_qc. It is resolved by on_qc_finish from on_receive_echo when the echo
set first reaches nmajority. -/
theorem C7_async_qc_finish :
    (∀ (s : HotStuffCore) (blkH : Hash) (blk : Block),
      findBlk s.storage blkH = some blk →
      (blk.height = 0 ∨ (lookupSet s.propagate_echos blk.hash).length ≥ s.config.nmajority) →
      async_qc_finish s blkH = .ok (.resolvedNow, s)) ∧
    (∀ (s : HotStuffCore) (blkH : Hash) (blk : Block),
      findBlk s.storage blkH = some blk →
      ¬(blk.height = 0 ∨ (lookupSet s.propagate_echos blk.hash).length ≥ s.config.nmajority) →
      ∃ s', async_qc_finish s blkH = .ok (.pending, s') ∧ blkH ∈ s'.qc_waiting) ∧
    (∀ (fuel : Nat) (env : Env) (s : HotStuffCore) (vote : Vote)
        (s' : HotStuffCore) (effs : List Effect),
      vote.blk_hash ∈ s.finished_propose →
      on_receive_vote (fuel + 1) env s vote = .ok (s', effs) →
      s'.qc_waiting = s.qc_waiting ∧ ∀ h, Effect.qcFinishResolved h ∉ effs) ∧
    (∀ (fuel : Nat) (env : Env) (s : HotStuffCore) (echo : Echo) (blk : Block),
      echo.rid ∉ lookupSet s.propagate_echos echo.blk_hash →
      (lookupSet s.propagate_echos echo.blk_hash).length + 1 = s.config.nmajority →
      env.is_propagate_timeout echo.blk_hash = false →
      echo.opcode = 0 →
      get_delivered_blk s.storage echo.blk_hash = .ok blk →
      blk.hash = echo.blk_hash →
      blk.height % s.config.commit_interval ≠ 0 →
      echo.blk_hash ∈ s.qc_waiting →
      on_receive_echo (fuel + 1) env s echo =
        .ok ({ s with propagate_echos :=
                        updateSet s.propagate_echos echo.blk_hash
                          (lookupSet s.propagate_echos echo.blk_hash ++ [echo.rid]),
                      qc_waiting := s.qc_waiting.erase echo.blk_hash },
             [Effect.qcFinishResolved echo.blk_hash])) := by
  refine ⟨?_, ?_, ?_, ?_⟩
  · intro s blkH blk hfind hcond
    simp [async_qc_finish, hfind, hcond]
  · intro s blkH blk hfind hcond
    by_cases hw : blkH ∈ s.qc_waiting
    · exact ⟨s, by simp [async_qc_finish, hfind, hcond, hw], hw⟩
    · refine ⟨{ s with qc_waiting := s.qc_waiting ++ [blkH] }, ?_, by simp⟩
      simp [async_qc_finish, hfind, hcond, hw]
  · intro fuel env s vote s' effs hfin hok
    rcases get_delivered_blk_cases s.storage vote.blk_hash with ⟨blk, _, _, hge⟩ | hge
    · by_cases h1 : blk.voted.length ≥ s.config.nmajority
      · simp [on_receive_vote, hge, hfin, h1, Except.bind, Bind.bind] at hok
        rw [← hok.1, hok.2]
        exact ⟨rfl, by simp⟩
      · by_cases h2 : vote.voter ∈ blk.voted
        · simp [on_receive_vote, hge, hfin, h1, insertNew, h2, Except.bind, Bind.bind] at hok
          rw [← hok.1, hok.2]
          exact ⟨rfl, by simp⟩
        · by_cases h3 : blk.voted.length + 1 = s.config.nmajority
          · simp [on_receive_vote, hge, hfin, h1, insertNew, h2, h3,
                  Except.bind, Bind.bind] at hok
            split at hok
            · cases hok
            · rename_i p heq
              injection hok with hok'
              have hs : s' = p.1 := congrArg Prod.fst hok'.symm
              have heffs : effs = p.2 := congrArg Prod.snd hok'.symm
              obtain ⟨hw, hef⟩ := update_hqc_shape _ _ _ p.1 p.2 (by rw [heq])
              subst hs heffs
              refine ⟨hw, fun h => ?_⟩
              rcases hef with hef | hef <;> simp [hef]
          · simp [on_receive_vote, hge, hfin, h1, insertNew, h2, h3, Except.bind, Bind.bind] at hok
            rw [← hok.1, hok.2]
            exact ⟨rfl, by simp⟩
    · simp [on_receive_vote, hge, Except.bind, Bind.bind] at hok
  · intro fuel env s echo blk hfresh hq ht hop hdeliv hhash hci hwait
    simp [on_receive_echo, insertNew, hfresh, hq, ht, hop, hdeliv, hhash, hci, hwait,
          on_qc_finish, Except.bind, Bind.bind]

/-- A delivered block of height 1 on top of the genesis, with no votes. -/
def B1C7 : Block :=
  { parent_hashes := [0], parents := [0], height := 1, delivered := true, hash := 1 }

/-- An initialized replica holding the chain genesis, block 1, with
nmajority 1, block 1's proposal already processed, and a pending
async_qc_finish promise for block 1. -/
def sC7 : HotStuffCore :=
  { on_init (construct 0 0) 0 1 with
    storage := (1, B1C7) :: (on_init (construct 0 0) 0 1).storage,
    config := { (on_init (construct 0 0) 0 1).config with nmajority := 1 },
    finished_propose := [1],
    qc_waiting := [1] }

/-- Counterexample to C7 as stated: the nmajority-th (here first) vote for
block 1 finalizes its self_qc in on_receive_vote (the voted set reaches
nmajority and the QC is computed), yet the async_qc_finish promise for
block 1 stays pending (qc_waiting still holds it and no qc-finish
resolution is emitted; only the hqc update fires). -/
theorem C7_counterexample :
    (on_receive_vote 5 envW sC7 ⟨2, 1, create_part_cert 2 (Vote.proof_obj_hash 1)⟩).map
        (fun r => (r.1.qc_waiting, r.2)) = .ok ([1], [Effect.hqcUpdateResolved]) ∧
    (on_receive_vote 5 envW sC7 ⟨2, 1, create_part_cert 2 (Vote.proof_obj_hash 1)⟩).map
        (fun r => (findBlk r.1.storage 1).map (fun b => (b.voted, b.self_qc.map QC.computed))) =
      .ok (some ([2], some true)) ∧
    sC7.config.nmajority = 1 := by
  refine ⟨?_, ?_, ?_⟩ <;> decide

/-- Witness for C7: the immediate, pending, vote-aggregation and
echo-quorum cases of the theorem at concrete states. -/
theorem C7_async_qc_finish_witness :
    async_qc_finish sC7 0 = .ok (.resolvedNow, sC7) ∧
    (∃ s', async_qc_finish { sC7 with qc_waiting := [] } 1 = .ok (.pending, s') ∧
      (1 : Hash) ∈ s'.qc_waiting) ∧
    on_receive_echo 3 envW { sC7 with config := { sC7.config with commit_interval := 2 } }
        ⟨2, 1, 0, create_part_cert 2 (Echo.proof_obj_hash 1)⟩ =
      .ok ({ { sC7 with config := { sC7.config with commit_interval := 2 } } with
              propagate_echos := updateSet sC7.propagate_echos 1 (lookupSet sC7.propagate_echos 1 ++ [2]),
              qc_waiting := List.erase [1] 1 },
           [Effect.qcFinishResolved 1]) := by
  refine ⟨?_, ?_, ?_⟩
  · exact C7_async_qc_finish.1 sC7 0
      { genesisBlock 0 with
        qc := some (QC.compute (create_quorum_cert (Vote.proof_obj_hash 0))),
        self_qc := some (QC.compute (create_quorum_cert (Vote.proof_obj_hash 0))),
        qc_ref := some 0 }
      (by decide) (by decide)
  · exact C7_async_qc_finish.2.1 { sC7 with qc_waiting := [] } 1 B1C7 (by decide) (by decide)
  · exact C7_async_qc_finish.2.2.2 2 envW
      { sC7 with config := { sC7.config with commit_interval := 2 } }
      ⟨2, 1, 0, create_part_cert 2 (Echo.proof_obj_hash 1)⟩ B1C7
      (by decide) (by decide) (by decide) (by decide) (by decide) (by decide) (by decide)
      (by decide)

/-! ### C8 — prune releases the stale chain suffix -/

/-- Walking primary parents from a block terminates at a parentless block
after exactly `k` hops. -/
inductive AncSteps (st : Store) : Block → Nat → Prop
  | zero (b : Block) (h : b.parents = []) : AncSteps st b 0
  | succ (b : Block) (pH : Hash) (rest : List Hash) (pb : Block) (k : Nat)
      (hpar : b.parents = pH :: rest) (hf : findBlk st pH = some pb)
      (ih : AncSteps st pb k) : AncSteps st b (k + 1)

theorem pruneSkip_noop (st : Store) (b : Block) (k : Nat)
    (hanc : AncSteps st b k) :
    ∀ n, k < n → pruneSkip st n b = .noop := by
  induction hanc with
  | zero b h =>
    intro n hn
    match n, hn with
    | m + 1, _ => simp [pruneSkip, h]
  | succ b pH rest pb k hpar hf ih hind =>
    intro n hn
    match n, hn with
    | m + 1, hn =>
      have : k < m := by omega
      simp [pruneSkip, hpar, hf, hind m this]

/-- The chain block of height i (hash i, primary parent i−1, genesis at
0). -/
def cBlk (i : Nat) : Block :=
  { parent_hashes := if i = 0 then [] else [i - 1],
    parents := if i = 0 then [] else [i - 1],
    height := i, delivered := true, decision := 1, hash := i }

/-- A replica holding the committed chain b0 ← B1 ← B2 ← B3 ← B4 ← B5
with b_exec = B5. -/
def sC8 : HotStuffCore :=
  { construct 0 0 with
    storage := [(5, cBlk 5), (4, cBlk 4), (3, cBlk 3), (2, cBlk 2), (1, cBlk 1), (0, cBlk 0)],
    b_exec := 5 }

/-- C8: on the committed chain b0 ← B1 ← B2 ← B3 ← B4 ← B5 with
b_exec = B5, prune(2) releases exactly b0, B1, B2, B3 (walking two
primary-parent hops back from b_exec and then releasing that block with
all its ancestors) while B4 and B5 remain in the store; and in general
prune(staleness) is a no-op whenever the primary-parent chain below b_exec
ends (at a parentless block) in fewer than staleness hops. -/
theorem C8_prune :
    ((prune sC8 2).map (fun r => r.2) = .ok [0, 1, 2, 3]) ∧
    ((prune sC8 2).map (fun r => r.1.storage.map Prod.fst) = .ok [5, 4]) ∧
    (∀ (s : HotStuffCore) (staleness : Nat) (bexec : Block) (k : Nat),
      findBlk s.storage s.b_exec = some bexec →
      AncSteps s.storage bexec k → k < staleness →
      prune s staleness = .ok (s, [])) := by
  refine ⟨by decide, by decide, ?_⟩
  intro s staleness bexec k hfind hanc hlt
  simp [prune, hfind, pruneSkip_noop s.storage bexec k hanc staleness hlt]

/-! ### C5 / C6 — equivocating proposals at one height -/

/-- Effects that vote for a block or start its reliable propagation. -/
def voteOrEchoEff : Effect → Bool
  | .broadcastVote _ _ => true
  | .broadcastEcho _ _ => true
  | .sendEcho _ _ _ => true
  | _ => false

/-- Effects that forward a block to other replicas: rebroadcasting its
proposal or propagating it via Echo. -/
def forwardEff : Effect → Bool
  | .broadcastProposal _ _ => true
  | .broadcastEcho _ _ => true
  | .sendEcho _ _ _ => true
  | .broadcastVote _ _ => true
  | _ => false

theorem lookupSet_updateSet (m : List (Nat × List Nat)) (k : Nat) (v : List Nat) :
    lookupSet (updateSet m k v) k = v := by
  induction m with
  | nil => simp [updateSet, lookupSet]
  | cons p rest ih =>
    obtain ⟨k', v'⟩ := p
    by_cases hk : k' = k
    · subst hk; simp [updateSet, lookupSet]
    · simp [updateSet, lookupSet, hk, ih]

/-- Shape of a _blame call: it always emits stop-blame-timer first and the
Blame broadcast last; in between come only the view-transition effects of
a possible new-view entry, never a vote or an echo; and neither vheight
nor the proposals map is touched. -/
theorem blameShape (fuel : Nat) (env : Env) (s : HotStuffCore)
    (hbqc : s.blame_qc.isSome = true) (hhqc : s.hqc.isSome = true) :
    ∃ s' inner, _blame (fuel + 4) env s =
        .ok (s', Effect.stopBlameTimer :: inner ++ [Effect.broadcastBlame s.id s.view]) ∧
      (∀ e ∈ inner, voteOrEchoEff e = false ∧ forwardEff e = false) ∧
      s'.vheight = s.vheight ∧ s'.proposals = s.proposals ∧
      s'.finished_propose = s.finished_propose := by
  by_cases hvt : s.view_trans = true
  · exact ⟨s, [], by simp [_blame, on_receive_blame, hvt, Except.bind, Bind.bind],
      by simp, rfl, rfl, rfl⟩
  · replace hvt : s.view_trans = false := by
      cases h : s.view_trans
      · rfl
      · exact absurd h hvt
    by_cases h1 : s.blamed.length ≥ s.config.nmajority
    · exact ⟨s, [], by simp [_blame, on_receive_blame, hvt, h1, Except.bind, Bind.bind],
        by simp, rfl, rfl, rfl⟩
    · by_cases h2 : s.id ∈ s.blamed
      · exact ⟨s, [], by
          simp [_blame, on_receive_blame, hvt, h1, insertNew, h2, Except.bind, Bind.bind],
          by simp, rfl, rfl, rfl⟩
      · obtain ⟨bqc, hbqc'⟩ := Option.isSome_iff_exists.mp hbqc
        by_cases h3 : s.blamed.length + 1 = s.config.nmajority
        · obtain ⟨⟨hqcH, hqcQC⟩, hhqc'⟩ := Option.isSome_iff_exists.mp hhqc
          refine ⟨{ s with
                      hqc := some (hqcH, hqcQC),
                      view_trans := true,
                      blame_qc := some ((bqc.add_part s.id).compute),
                      blamed := s.blamed ++ [s.id] },
                  [Effect.viewTransResolved,
                   Effect.broadcastBlamenotify
                     ⟨s.view, hqcH, hqcQC, (bqc.add_part s.id).compute⟩,
                   Effect.stopCommitTimerAll,
                   Effect.setViewtransTimer (2 * s.config.delta)], ?_, ?_, ?_, ?_, ?_⟩
          · simp [_blame, on_receive_blame, _new_view, on_receive_blamenotify, hvt, h1,
                  insertNew, h2, hbqc', h3, hhqc', Except.bind, Bind.bind]
          · simp [voteOrEchoEff, forwardEff]
          · rfl
          · rfl
          · rfl
        · refine ⟨{ s with
                      blame_qc := some (bqc.add_part s.id),
                      blamed := s.blamed ++ [s.id] }, [], ?_, ?_, ?_, ?_, ?_⟩
          · simp [_blame, on_receive_blame, hvt, h1, insertNew, h2, hbqc', h3,
                  Except.bind, Bind.bind]
          · simp
          · rfl
          · rfl
          · rfl

/-- C5: when a second proposal distinct from the recorded one arrives at
the same height, the replica inserts it into the height slot (which then
holds both), does not vote for it and does not start its propagation
(vheight is untouched and no vote or echo effect is emitted), and instead
triggers a Blame for the current view. -/
theorem C5_no_double_vote (fuel : Nat) (env : Env) (s : HotStuffCore)
    (prop : Proposal) (bnew : Block) (b1H : Hash)
    (hvt : s.view_trans = false)
    (hfin : prop.blk ∉ s.finished_propose)
    (hdeliv : get_delivered_blk s.storage prop.blk = .ok bnew)
    (hqcr : bnew.qc_ref = none)
    (hslot : lookupSet s.proposals bnew.height = [b1H])
    (hne : b1H ≠ prop.blk)
    (hbqc : s.blame_qc.isSome = true)
    (hhqc : s.hqc.isSome = true) :
    ∃ s' effs, on_receive_proposal (fuel + 5) env s prop = .ok (s', effs) ∧
      lookupSet s'.proposals bnew.height = [b1H, prop.blk] ∧
      Effect.broadcastBlame s.id s.view ∈ effs ∧
      s'.vheight = s.vheight ∧
      ∀ e ∈ effs, voteOrEchoEff e = false := by
  have hne' : prop.blk ∉ [b1H] := by
    intro hmem
    rw [List.mem_singleton] at hmem
    exact hne hmem.symm
  have hnb : ¬prop.blk = b1H := fun h => hne h.symm
  have hins : setInsert [b1H] prop.blk = [b1H, prop.blk] := by
    simp [setInsert, hnb]
  obtain ⟨sB, inner, hB, hInner, hVh, hProps, hFin⟩ :=
    blameShape fuel env
      { s with view_trans := false,
               proposals := updateSet s.proposals bnew.height [b1H, prop.blk] }
      (by simpa using hbqc) (by simpa using hhqc)
  refine ⟨{ sB with finished_propose := setInsert sB.finished_propose prop.blk },
          Effect.stopBlameTimer ::
            inner ++ [Effect.broadcastBlame s.id s.view,
                      Effect.receiveProposalResolved prop.blk], ?_, ?_, ?_, ?_, ?_⟩
  · have hf5 : fuel + 5 = (fuel + 4) + 1 := by omega
    rw [hf5]
    simp [on_receive_proposal, hvt, hfin, hdeliv, hqcr, hslot, hins, hB,
          Except.bind, Bind.bind, List.append_assoc]
  · rw [hProps]
    exact lookupSet_updateSet _ _ _
  · simp
  · exact hVh
  · intro e he
    rcases List.mem_cons.mp he with rfl | he2
    · rfl
    · rcases List.mem_append.mp he2 with hi | htail
      · exact (hInner e hi).1
      · rcases List.mem_cons.mp htail with rfl | h3
        · rfl
        · rw [List.mem_singleton] at h3
          subst h3
          rfl

/-- Two distinct delivered blocks at height 1 on top of the genesis. -/
def B1aC5 : Block :=
  { parent_hashes := [0], parents := [0], height := 1, delivered := true, hash := 1 }

/-- The equivocating sibling of B1aC5 (same height, different hash). -/
def B1bC5 : Block :=
  { parent_hashes := [0], parents := [0], height := 1, delivered := true, hash := 2 }

/-- Replica 1, initialized, with both height-1 blocks delivered, the first
one (hash 1) already recorded in proposals[1] and processed, and nmajority
3. -/
def sC5 : HotStuffCore :=
  { on_init (construct 1 0) 0 1 with
    storage := (2, B1bC5) :: (1, B1aC5) :: (on_init (construct 1 0) 0 1).storage,
    config := { (on_init (construct 1 0) 0 1).config with nmajority := 3 },
    proposals := [(1, [1])],
    finished_propose := [1] }

/-- Witness for C5: replica 1 receives the equivocating proposal for block
2 at height 1 after recording block 1; the slot becomes size 2, a Blame
for view 0 goes out, and no vote or propagation is started. -/
theorem C5_no_double_vote_witness :
    ∃ s' effs, on_receive_proposal 9 envW sC5 ⟨0, 2⟩ = .ok (s', effs) ∧
      lookupSet s'.proposals B1bC5.height = [1, 2] ∧
      Effect.broadcastBlame sC5.id sC5.view ∈ effs ∧
      s'.vheight = sC5.vheight ∧
      ∀ e ∈ effs, voteOrEchoEff e = false :=
  C5_no_double_vote 4 envW sC5 ⟨0, 2⟩ B1bC5 1 (by decide) (by decide) (by decide)
    (by decide) (by decide) (by decide) (by decide) (by decide)

/-- C6 (amended): when a second distinct proposal arrives at a height, it
IS inserted into proposals[height] (the slot then holds both proposals,
matching scenario S2) while equivocation is flagged (blaming starts) and
the second proposal is neither voted for nor forwarded; it is only a third
or later distinct proposal at the same height that is not stored, and such
a proposal triggers no further blame and is not forwarded either. -/
theorem C6_second_proposal_recording :
    (∀ (fuel : Nat) (env : Env) (s : HotStuffCore) (prop : Proposal) (bnew : Block) (b1H : Hash),
      s.view_trans = false →
      prop.blk ∉ s.finished_propose →
      get_delivered_blk s.storage prop.blk = .ok bnew →
      bnew.qc_ref = none →
      lookupSet s.proposals bnew.height = [b1H] →
      b1H ≠ prop.blk →
      s.blame_qc.isSome = true →
      s.hqc.isSome = true →
      ∃ s' effs, on_receive_proposal (fuel + 5) env s prop = .ok (s', effs) ∧
        lookupSet s'.proposals bnew.height = [b1H, prop.blk] ∧
        Effect.broadcastBlame s.id s.view ∈ effs ∧
        ∀ e ∈ effs, forwardEff e = false) ∧
    (∀ (fuel : Nat) (env : Env) (s : HotStuffCore) (prop : Proposal) (bnew : Block)
        (aH bH : Hash),
      s.view_trans = false →
      prop.blk ∉ s.finished_propose →
      get_delivered_blk s.storage prop.blk = .ok bnew →
      bnew.qc_ref = none →
      lookupSet s.proposals bnew.height = [aH, bH] →
      on_receive_proposal (fuel + 1) env s prop =
        .ok ({ s with proposals := updateSet s.proposals bnew.height [aH, bH],
                      finished_propose := setInsert s.finished_propose prop.blk },
             [Effect.receiveProposalResolved prop.blk]) ∧
      lookupSet (updateSet s.proposals bnew.height [aH, bH]) bnew.height = [aH, bH]) := by
  constructor
  · intro fuel env s prop bnew b1H hvt hfin hdeliv hqcr hslot hne hbqc hhqc
    have hnb : ¬prop.blk = b1H := fun h => hne h.symm
    have hins : setInsert [b1H] prop.blk = [b1H, prop.blk] := by
      simp [setInsert, hnb]
    obtain ⟨sB, inner, hB, hInner, hVh, hProps, hFin⟩ :=
      blameShape fuel env
        { s with view_trans := false,
                 proposals := updateSet s.proposals bnew.height [b1H, prop.blk] }
        (by simpa using hbqc) (by simpa using hhqc)
    refine ⟨{ sB with finished_propose := setInsert sB.finished_propose prop.blk },
            Effect.stopBlameTimer ::
              inner ++ [Effect.broadcastBlame s.id s.view,
                        Effect.receiveProposalResolved prop.blk], ?_, ?_, ?_, ?_⟩
    · have hf5 : fuel + 5 = (fuel + 4) + 1 := by omega
      rw [hf5]
      simp [on_receive_proposal, hvt, hfin, hdeliv, hqcr, hslot, hins, hB,
            Except.bind, Bind.bind, List.append_assoc]
    · rw [hProps]
      exact lookupSet_updateSet _ _ _
    · simp
    · intro e he
      rcases List.mem_cons.mp he with rfl | he2
      · rfl
      · rcases List.mem_append.mp he2 with hi | htail
        · exact (hInner e hi).2
        · rcases List.mem_cons.mp htail with rfl | h3
          · rfl
          · rw [List.mem_singleton] at h3
            subst h3
            rfl
  · intro fuel env s prop bnew aH bH hvt hfin hdeliv hqcr hslot
    constructor
    · simp [on_receive_proposal, hvt, hfin, hdeliv, hqcr, hslot, Except.bind, Bind.bind]
    · exact lookupSet_updateSet _ _ _

/-- Counterexample to C6 as stated: processing the second distinct
proposal at height 1 leaves proposals[1] holding both blocks (size 2), so
the second proposal IS stored, contradicting "only the first is
recorded". -/
theorem C6_counterexample :
    (on_receive_proposal 9 envW sC5 ⟨0, 2⟩).map (fun r => lookupSet r.1.proposals 1) =
      .ok [1, 2] := by
  decide

/-- Witness for C6: the second-proposal and third-proposal cases at
concrete states. -/
theorem C6_second_proposal_recording_witness :
    (∃ s' effs, on_receive_proposal 9 envW sC5 ⟨0, 2⟩ = .ok (s', effs) ∧
      lookupSet s'.proposals B1bC5.height = [1, 2] ∧
      Effect.broadcastBlame sC5.id sC5.view ∈ effs ∧
      ∀ e ∈ effs, forwardEff e = false) ∧
    (on_receive_proposal 9 envW { sC5 with proposals := [(1, [1, 3])] } ⟨0, 2⟩ =
      .ok ({ { sC5 with proposals := [(1, [1, 3])] } with
              proposals := updateSet [(1, [1, 3])] 1 [1, 3],
              finished_propose := setInsert sC5.finished_propose 2 },
           [Effect.receiveProposalResolved 2]) ∧
     lookupSet (updateSet [(1, [1, 3])] 1 [1, 3]) 1 = [1, 3]) := by
  constructor
  · exact C6_second_proposal_recording.1 4 envW sC5 ⟨0, 2⟩ B1bC5 1 (by decide) (by decide)
      (by decide) (by decide) (by decide) (by decide) (by decide) (by decide)
  · exact C6_second_proposal_recording.2 8 envW { sC5 with proposals := [(1, [1, 3])] }
      ⟨0, 2⟩ B1bC5 1 3 (by decide) (by decide) (by decide) (by decide) (by decide)

/-! ### C1 — vheight monotonicity -/

theorem get_delivered_of_ok (st : Store) (h : Hash) (b : Block)
    (hok : get_delivered_blk st h = .ok b) :
    findBlk st h = some b ∧ b.delivered = true := by
  unfold get_delivered_blk at hok
  split at hok
  · cases hok
  · split at hok
    · injection hok with h'
      subst h'
      rename_i hf hd
      exact ⟨hf, hd⟩
    · cases hok

theorem parentWalk_one_step (st : Store) (b pref : Block) (prefH : Hash)
    (hpar : b.parents = [prefH]) (hf : findBlk st prefH = some pref)
    (hlt : pref.height < b.height) :
    parentWalk st pref.height b.height b = .ok ([b], pref) := by
  obtain ⟨k, hk⟩ : ∃ k, b.height = k + 1 := ⟨b.height - 1, by omega⟩
  rw [hk]
  have hk' : ¬pref.height > pref.height := by omega
  have hinner : parentWalk st pref.height k pref = .ok ([], pref) := by
    unfold parentWalk
    rw [if_neg hk']
  simp [parentWalk, hlt, hpar, hf, hk', hinner, Except.bind, Bind.bind]

/-- C1 (amended): the strict vheight guard exists only in on_propose: a
new own proposal whose height is ≤ vheight makes on_propose throw the
"new block should be higher than vheight" error, and otherwise vheight
becomes the strictly larger new height. on_receive_proposal performs no
such check: when the single proposal at its height extends the hqc block,
it sets vheight to the proposal's height unconditionally — with no
comparison to the previous vheight and no safety error — so vheight can
decrease on the receive path. -/
theorem C1_vheight_guard :
    (∀ (fuel : Nat) (env : Env) (s : HotStuffCore) (cmds : List Nat)
        (p0H newHash : Hash) (extra : Nat) (p0 : Block) (hqcH : Hash) (hqcQC : QC),
      s.view_trans = false →
      findBlk s.storage p0H = some p0 →
      p0.delivered = true →
      findBlk s.storage newHash = none →
      newHash ≠ p0H →
      s.hqc = some (hqcH, hqcQC) →
      (p0.height + 1) % s.config.commit_interval ≠ 0 →
      s.id ≠ env.get_proposer →
      (p0.height + 1 ≤ s.vheight →
        on_propose (fuel + 1) env s cmds [p0H] extra newHash = .error .vheightLow) ∧
      (p0.height + 1 > s.vheight →
        (on_propose (fuel + 1) env s cmds [p0H] extra newHash).map
            (fun r => (r.1, r.2.1.vheight)) = .ok (some newHash, p0.height + 1))) ∧
    (∀ (fuel : Nat) (env : Env) (s : HotStuffCore) (prop : Proposal) (bnew : Block)
        (prefH : Hash) (pref : Block) (hqcQC : QC),
      s.view_trans = false →
      prop.blk ∉ s.finished_propose →
      get_delivered_blk s.storage prop.blk = .ok bnew →
      bnew.qc_ref = none →
      lookupSet s.proposals bnew.height = [] →
      s.hqc = some (prefH, hqcQC) →
      findBlk s.storage prefH = some pref →
      pref.hash = prefH →
      bnew.parents = [prefH] →
      pref.height < bnew.height →
      bnew.height % s.config.commit_interval ≠ 0 →
      s.id ≠ env.get_proposer →
      (on_receive_proposal (fuel + 2) env s prop).map (fun r => r.1.vheight) =
        .ok bnew.height) := by
  constructor
  · intro fuel env s cmds p0H newHash extra p0 hqcH hqcQC
      hvt hp0 hp0del hnew hneq hhqc hci hnp
    have hne2 : ¬newHash = p0H := hneq
    have hne3 : ¬p0H = newHash := fun h => hneq h.symm
    have hciF : ¬(p0.height + 1) % s.config.commit_interval = 0 := hci
    constructor
    · intro hle
      simp [on_propose, hvt, hp0, hp0del, hnew, hhqc, hciF, hnp, add_blk,
            on_deliver_blk, requireDelivered, get_delivered_blk, findBlk_setBlk,
            findBlk, hne2, hne3, setInsert, hle, Except.bind, Bind.bind]
    · intro hgt
      have hle' : ¬p0.height + 1 ≤ s.vheight := by omega
      simp [on_propose, hvt, hp0, hp0del, hnew, hhqc, hciF, hnp, add_blk,
            on_deliver_blk, requireDelivered, get_delivered_blk, findBlk_setBlk,
            findBlk, hne2, hne3, setInsert, hle', _propagate_blk,
            Except.bind, Bind.bind, Except.map]
  · intro fuel env s prop bnew prefH pref hqcQC
      hvt hfin hdeliv hqcr hslot hhqc hpf hph hpar hlt hci hnp
    obtain ⟨hfind, hdel⟩ := get_delivered_of_ok _ _ _ hdeliv
    have hwalk := parentWalk_one_step s.storage bnew pref prefH hpar hpf hlt
    simp [on_receive_proposal, hvt, hfin, hdeliv, hqcr, hslot, hhqc, hpf, hwalk,
          hph, hci, hnp, hfind, setInsert, _propagate_blk, Except.bind, Bind.bind,
          Except.map]

/-- A replica with vheight 5 whose hqc is still the genesis, holding a
delivered height-1 block extending the genesis, commit_interval 2. -/
def sC1 : HotStuffCore :=
  { on_init (construct 1 0) 0 1 with
    storage := (1, B1aC5) :: (on_init (construct 1 0) 0 1).storage,
    vheight := 5,
    config := { (on_init (construct 1 0) 0 1).config with
                  nmajority := 3, commit_interval := 2 } }

/-- Counterexample to C1 as stated: with vheight 5, receiving the height-1
proposal extending the hqc block succeeds without any safety error and
sets vheight to 1, so the voting path of on_receive_proposal neither keeps
vheight strictly increasing nor raises an error at a height ≤ vheight. -/
theorem C1_counterexample :
    sC1.vheight = 5 ∧
    (on_receive_proposal 9 envW sC1 ⟨0, 1⟩).map (fun r => r.1.vheight) = .ok 1 := by
  constructor
  · decide
  · decide

/-- Witness for C1: both on_propose branches and the unconditional
on_receive_proposal assignment at concrete states. -/
theorem C1_vheight_guard_witness :
    (on_propose 3 envW sC1 [7] [0] 0 9 = .error .vheightLow) ∧
    ((on_propose 3 envW { sC1 with vheight := 0 } [7] [0] 0 9).map
        (fun r => (r.1, r.2.1.vheight)) = .ok (some 9, 0 + 1)) ∧
    ((on_receive_proposal 9 envW sC1 ⟨0, 1⟩).map (fun r => r.1.vheight) =
        .ok B1aC5.height) := by
  refine ⟨?_, ?_, ?_⟩
  · exact (C1_vheight_guard.1 2 envW sC1 [7] 0 9 0
      { genesisBlock 0 with
        qc := some (QC.compute (create_quorum_cert (Vote.proof_obj_hash 0))),
        self_qc := some (QC.compute (create_quorum_cert (Vote.proof_obj_hash 0))),
        qc_ref := some 0 }
      0 (QC.compute (create_quorum_cert (Vote.proof_obj_hash 0)))
      (by decide) (by decide) (by decide) (by decide) (by decide) (by decide)
      (by decide) (by decide)).1 (by decide)
  · exact (C1_vheight_guard.1 2 envW { sC1 with vheight := 0 } [7] 0 9 0
      { genesisBlock 0 with
        qc := some (QC.compute (create_quorum_cert (Vote.proof_obj_hash 0))),
        self_qc := some (QC.compute (create_quorum_cert (Vote.proof_obj_hash 0))),
        qc_ref := some 0 }
      0 (QC.compute (create_quorum_cert (Vote.proof_obj_hash 0)))
      (by decide) (by decide) (by decide) (by decide) (by decide) (by decide)
      (by decide) (by decide)).2 (by decide)
  · exact C1_vheight_guard.2 7 envW sC1 ⟨0, 1⟩ B1aC5 0
      { genesisBlock 0 with
        qc := some (QC.compute (create_quorum_cert (Vote.proof_obj_hash 0))),
        self_qc := some (QC.compute (create_quorum_cert (Vote.proof_obj_hash 0))),
        qc_ref := some 0 }
      (QC.compute (create_quorum_cert (Vote.proof_obj_hash 0)))
      (by decide) (by decide) (by decide) (by decide) (by decide) (by decide)
      (by decide) (by decide) (by decide) (by decide) (by decide) (by decide)

/-! ### C3 — check_commit walks to b_exec and commits in ascending order -/

/-- The primary-parent walk of check_commit, described relationally: from
`b`, while the height exceeds `bh`, follow parents[0] (with strictly
decreasing heights), collecting the visited blocks top-down into `q` and
ending at the terminal block `t`. -/
inductive WalkOK (st : Store) (bh : Nat) : Block → List Block → Block → Prop
  | stop (b : Block) (h : ¬b.height > bh) : WalkOK st bh b [] b
  | step (b : Block) (pH : Hash) (rest : List Hash) (pb : Block) (q : List Block)
      (t : Block) (hgt : b.height > bh) (hpar : b.parents = pH :: rest)
      (hf : findBlk st pH = some pb) (hlt : pb.height < b.height)
      (ih : WalkOK st bh pb q t) : WalkOK st bh b (b :: q) t

theorem WalkOK.length_le {st : Store} {bh : Nat} {b : Block} {q : List Block} {t : Block}
    (h : WalkOK st bh b q t) : q.length + t.height ≤ b.height := by
  induction h with
  | stop b h => simp
  | step b pH rest pb q t hgt hpar hf hlt ih hind =>
    simp only [List.length_cons]
    omega

theorem parentWalk_of_walkOK {st : Store} {bh : Nat} {b : Block} {q : List Block} {t : Block}
    (h : WalkOK st bh b q t) :
    ∀ fuel, q.length ≤ fuel → parentWalk st bh fuel b = .ok (q, t) := by
  induction h with
  | stop b h =>
    intro fuel _
    unfold parentWalk
    rw [if_neg h]
  | step b pH rest pb q t hgt hpar hf hlt ih hind =>
    intro fuel hfuel
    match fuel, hfuel with
    | f + 1, hfuel =>
      have hf' : q.length ≤ f := by simpa using Nat.lt_succ_iff.mp (Nat.lt_of_lt_of_le (Nat.lt_succ_of_le (Nat.le_refl _)) hfuel)
      unfold parentWalk
      rw [if_pos hgt]
      simp [hpar, hf, hind f (by simpa using Nat.succ_le_succ_iff.mp hfuel), Except.bind, Bind.bind]

theorem findBlk_markCommitted_notmem (st : Store) (q : List Block) (h : Hash)
    (hnot : ∀ b ∈ q, b.hash ≠ h) :
    findBlk (markCommitted st q) h = findBlk st h := by
  induction q generalizing st with
  | nil => rfl
  | cons b rest ih =>
    have hb : b.hash ≠ h := hnot b (List.mem_cons_self b rest)
    have hrest : ∀ b' ∈ rest, b'.hash ≠ h := fun b' hb' => hnot b' (List.mem_cons_of_mem b hb')
    calc findBlk (markCommitted (setBlk st b.hash { b with decision := 1 }) rest) h
        = findBlk (setBlk st b.hash { b with decision := 1 }) h := ih _ hrest
      _ = findBlk st h := by
          rw [findBlk_setBlk]
          exact if_neg (fun e => hb e.symm)

theorem findBlk_markCommitted_mem (st : Store) (q : List Block) (b : Block)
    (hnd : (q.map Block.hash).Nodup) (hmem : b ∈ q) :
    findBlk (markCommitted st q) b.hash = some { b with decision := 1 } := by
  induction q generalizing st with
  | nil => cases hmem
  | cons c rest ih =>
    rcases List.mem_cons.mp hmem with rfl | hmem'
    · have hnot : ∀ b' ∈ rest, b'.hash ≠ b.hash := by
        intro b' hb' he
        have : b.hash ∉ rest.map Block.hash := (List.nodup_cons.mp hnd).1
        exact this (he ▸ List.mem_map_of_mem Block.hash hb')
      calc findBlk (markCommitted (setBlk st b.hash { b with decision := 1 }) rest) b.hash
          = findBlk (setBlk st b.hash { b with decision := 1 }) b.hash :=
            findBlk_markCommitted_notmem _ _ _ hnot
        _ = some { b with decision := 1 } := by rw [findBlk_setBlk]; exact if_pos rfl
    · have hnd' : (rest.map Block.hash).Nodup := (List.nodup_cons.mp hnd).2
      exact ih _ hnd' hmem'

/-- C3: for a stored block of non-zero height, check_commit walks
parents[0] down to b_exec's height; if the walk's terminal block is
neither b_exec nor already committed it raises the safety-breach error and
commits nothing; otherwise it marks every collected block decided and, in
ascending height order, emits do_consensus plus one
Finality(id, 1, i, height, cmds[i], hash) per command, finally setting
b_exec to the argument block; a block of height 0 returns immediately. -/
theorem C3_check_commit :
    (∀ (s : HotStuffCore) (blkH : Hash) (blk bexec t : Block) (q : List Block),
      findBlk s.storage blkH = some blk →
      blk.height ≠ 0 →
      findBlk s.storage s.b_exec = some bexec →
      WalkOK s.storage bexec.height blk q t →
      ((t.hash = s.b_exec ∨ t.decision = 1) →
        check_commit s blkH =
          .ok ({ s with storage := markCommitted s.storage q.reverse, b_exec := blkH },
               (q.reverse).foldr (fun b acc => commitEffects s.id b ++ acc) []) ∧
        ((q.reverse.map Block.hash).Nodup →
          ∀ b ∈ q, findBlk (markCommitted s.storage q.reverse) b.hash =
            some { b with decision := 1 })) ∧
      ((t.hash ≠ s.b_exec ∧ t.decision ≠ 1) →
        check_commit s blkH = .error .safetyBreached)) ∧
    (∀ (s : HotStuffCore) (blkH : Hash) (blk : Block),
      findBlk s.storage blkH = some blk → blk.height = 0 →
      check_commit s blkH = .ok (s, [])) := by
  constructor
  · intro s blkH blk bexec t q hfind hne0 hbexec hwalk
    have hlen : q.length ≤ blk.height := by
      have := hwalk.length_le
      omega
    have hw := parentWalk_of_walkOK hwalk blk.height hlen
    constructor
    · intro hgood
      have hnc : ¬(t.hash ≠ s.b_exec ∧ t.decision ≠ 1) := by tauto
      constructor
      · simp [check_commit, hfind, hne0, hbexec, hw, hnc, Except.bind, Bind.bind]
      · intro hnd b hb
        exact findBlk_markCommitted_mem s.storage q.reverse b hnd (List.mem_reverse.mpr hb)
    · intro hbad
      simp [check_commit, hfind, hne0, hbexec, hw, hbad, Except.bind, Bind.bind]
  · intro s blkH blk hfind h0
    simp [check_commit, hfind, h0]

/-- Divergent-branch state: b_exec is the decided block 9 at height 1, but
block 2 (height 2) hangs off the undecided sibling 1. -/
def sC3b : HotStuffCore :=
  { construct 0 0 with
    storage :=
      [(2, { parent_hashes := [1], parents := [1], height := 2, delivered := true, hash := 2 }),
       (9, { parent_hashes := [0], parents := [0], height := 1, delivered := true,
             decision := 1, hash := 9 }),
       (1, B1aC5), (0, genesisBlock 0)],
    b_exec := 9 }

/-- Witness for C3: committing block 1 over the genesis emits do_consensus
plus the Finality for its command and advances b_exec, while the divergent
branch raises the safety breach. -/
theorem C3_check_commit_witness :
    (check_commit sC2 1 =
      .ok ({ sC2 with storage := markCommitted sC2.storage [B1C2], b_exec := 1 },
           [B1C2].foldr (fun b acc => commitEffects sC2.id b ++ acc) [])) ∧
    check_commit sC3b 2 = .error .safetyBreached := by
  constructor
  · exact ((C3_check_commit.1 sC2 1 B1C2 (genesisBlock 0) (genesisBlock 0) [B1C2]
      (by decide) (by decide) (by decide)
      (WalkOK.step B1C2 0 [] (genesisBlock 0) [] (genesisBlock 0)
        (by decide) (by decide) (by decide) (by decide)
        (WalkOK.stop _ (by decide)))).1 (by decide)).1
  · exact (C3_check_commit.1 sC3b 2
      { parent_hashes := [1], parents := [1], height := 2, delivered := true, hash := 2 }
      { parent_hashes := [0], parents := [0], height := 1, delivered := true,
        decision := 1, hash := 9 }
      B1aC5
      [{ parent_hashes := [1], parents := [1], height := 2, delivered := true, hash := 2 }]
      (by decide) (by decide) (by decide)
      (WalkOK.step _ 1 [] B1aC5 [] B1aC5 (by decide) (by decide) (by decide) (by decide)
        (WalkOK.stop _ (by decide)))).2 (by decide)

/-- Witness for C8: on the six-block chain, b_exec has five ancestors, so
prune(6) is a no-op. -/
theorem C8_prune_witness : prune sC8 6 = .ok (sC8, []) :=
  C8_prune.2.2 sC8 6 (cBlk 5) 5 (by decide)
    (AncSteps.succ _ 4 [] (cBlk 4) 4 (by decide) (by decide)
      (AncSteps.succ _ 3 [] (cBlk 3) 3 (by decide) (by decide)
        (AncSteps.succ _ 2 [] (cBlk 2) 2 (by decide) (by decide)
          (AncSteps.succ _ 1 [] (cBlk 1) 1 (by decide) (by decide)
            (AncSteps.succ _ 0 [] (cBlk 0) 0 (by decide) (by decide)
              (AncSteps.zero _ (by decide)))))))
    (by decide)
